import Mathlib

/-!
# Arm64 hardware intrinsics: name resolution and lowering

A shallow embedding of `src/jit/hwintrinsicArm64.cpp`.

* Enumerators (`InstructionSet`, `NamedIntrinsic`) are carried by their integer value.
* `const char*` arguments are `String`s; an argument the code tests against `nullptr`
  is an `Option String`.
* The declarations the file takes from headers that are not part of it (the class list and
  the intrinsic list of `hwintrinsiclistArm64.h`, the enumerator values) are the fields of
  `Arm64Decls`; nothing is assumed about them except where a theorem says so.
* A read outside `hwIntrinsicInfoArray` is undefined behaviour in C++; the embedding
  returns `none` for it.
-/

namespace HWIntrinsicArm64

/-- An `InstructionSet` enumerator, by value. -/
abbrev InstructionSet := Nat

/-- A `NamedIntrinsic` enumerator, by value. -/
abbrev NamedIntrinsic := Nat

namespace IsaFlag

/-- The enumerator `IsaFlag::None = 0`. -/
def None : Nat := 0

/-- The enumerator `IsaFlag::EveryISA = ~0ULL`. -/
def EveryISA : Nat := 2 ^ 64 - 1

/-- The function `Flag operator|(Flag a, Flag b)`: `Flag(uint64_t(a) | uint64_t(b))`. -/
def union (a b : Nat) : Nat := (a ||| b) % 2 ^ 64

/-- The function `Flag flag(InstructionSet isa)`: `Flag(1ULL << isa)`, a 64-bit shift.
(For `isa ≥ 64` the C++ shift is undefined; the theorems that need the bit assume
`isa < 64`.) -/
def flag (isa : InstructionSet) : Nat := (1 <<< isa) % 2 ^ 64

end IsaFlag

/-- The enumeration `HWIntrinsicInfo::Form`. The file names eight forms; every other form of
the (absent) header reaches the `default:` label of both switches and is `otherForm`. -/
inductive Form
  | IsSupported
  | Unsupported
  | SimdBinaryOp
  | SimdInsertOp
  | SimdSelectOp
  | SimdSetAllOp
  | SimdUnaryOp
  | SimdExtractOp
  | otherForm (n : Nat)
  deriving DecidableEq, Repr

/-- One row of `hwIntrinsicInfoArray`. The members `flags` and `instrs` are read by no
function of this file and are left out. -/
structure HWIntrinsicInfo where
  intrinsicID : NamedIntrinsic
  intrinsicName : String
  isaflags : Nat
  form : Form
  deriving DecidableEq, Repr

/-- One line `HARDWARE_INTRINSIC_CLASS(flag, isa)` of `hwintrinsiclistArm64.h`:
the text `#isa` and the enumerator `InstructionSet_##isa`. -/
structure IsaClass where
  name : String
  isa : InstructionSet
  deriving DecidableEq, Repr

/-- What `hwintrinsicArm64.cpp` takes from headers that are not part of it. -/
structure Arm64Decls where
  InstructionSet_Base : InstructionSet
  InstructionSet_NONE : InstructionSet
  /-- The `HARDWARE_INTRINSIC_CLASS` lines, in order. -/
  classes : List IsaClass
  NI_Illegal : NamedIntrinsic
  NI_HW_INTRINSIC_START : NamedIntrinsic
  NI_ARM64_IsSupported_True : NamedIntrinsic
  NI_ARM64_IsSupported_False : NamedIntrinsic
  NI_ARM64_PlatformNotSupported : NamedIntrinsic
  NI_HW_INTRINSIC_END : NamedIntrinsic
  /-- The `HARDWARE_INTRINSIC` lines, in order, each expanded to its row. -/
  intrinsics : List HWIntrinsicInfo

/-- The table `hwIntrinsicInfoArray`: three rows written out, then the rows of the list. -/
def hwIntrinsicInfoArray (D : Arm64Decls) : List HWIntrinsicInfo :=
  { intrinsicID := D.NI_ARM64_IsSupported_True, intrinsicName := "get_IsSupported",
    isaflags := IsaFlag.EveryISA, form := Form.IsSupported } ::
  { intrinsicID := D.NI_ARM64_IsSupported_False, intrinsicName := "::NI_ARM64_IsSupported_False",
    isaflags := IsaFlag.EveryISA, form := Form.IsSupported } ::
  { intrinsicID := D.NI_ARM64_PlatformNotSupported,
    intrinsicName := "::NI_ARM64_PlatformNotSupported",
    isaflags := IsaFlag.EveryISA, form := Form.Unsupported } ::
  D.intrinsics

/-- The function `Compiler::getHWIntrinsicInfo`: both asserts, then the row at
`intrinsic - NI_HW_INTRINSIC_START - 1`. `none` is a failed assert or a read outside
the table. -/
def getHWIntrinsicInfo (D : Arm64Decls) (intrinsic : NamedIntrinsic) : Option HWIntrinsicInfo :=
  if D.NI_HW_INTRINSIC_START < intrinsic ∧ intrinsic < D.NI_HW_INTRINSIC_END then
    (hwIntrinsicInfoArray D)[intrinsic - D.NI_HW_INTRINSIC_START - 1]?
  else
    none

/-- The function `getHWIntrinsicName`: the name of the row at
`intrinsic - NI_HW_INTRINSIC_START - 1`. -/
def getHWIntrinsicName (D : Arm64Decls) (intrinsic : NamedIntrinsic) : Option String :=
  ((hwIntrinsicInfoArray D)[intrinsic - D.NI_HW_INTRINSIC_START - 1]?).map
    HWIntrinsicInfo.intrinsicName

/-- The expansion of the `HARDWARE_INTRINSIC_CLASS` lines inside `lookupHWIntrinsicISA`:
one `if (strcmp(className, #isa) == 0) return InstructionSet_##isa;` per line, in order.
`none` when control falls through all of them. -/
def lookupClassList (className : String) : List IsaClass → Option InstructionSet
  | [] => none
  | c :: rest => if className = c.name then some c.isa else lookupClassList className rest

/-- The function `Compiler::lookupHWIntrinsicISA`. -/
def lookupHWIntrinsicISA (D : Arm64Decls) : Option String → InstructionSet
  | none => D.InstructionSet_NONE
  | some className =>
    if className = "Base" then D.InstructionSet_Base
    else
      match lookupClassList className D.classes with
      | some isa => isa
      | none => D.InstructionSet_NONE

/-- The test of the `if` inside the scan of `lookupHWIntrinsic`:
`(isaFlag & info.isaflags) && strcmp(methodName, info.intrinsicName) == 0`. -/
def rowMatches (isaFlag : Nat) (methodName : String) (info : HWIntrinsicInfo) : Bool :=
  decide (isaFlag &&& info.isaflags ≠ 0) && decide (methodName = info.intrinsicName)

/-- The `for` loop of `lookupHWIntrinsic`, entered with `n` iterations left at index `i`.
The loop falling off its end leaves `result = NI_Illegal`; a row read outside the table
is `none`. -/
def lookupLoop (D : Arm64Decls) (compSupports : InstructionSet → Bool) (isa : InstructionSet)
    (isaFlag : Nat) (methodName : String) : Nat → Nat → Option NamedIntrinsic
  | 0, _ => some D.NI_Illegal
  | n + 1, i =>
    match (hwIntrinsicInfoArray D)[i]? with
    | none => none
    | some info =>
      if rowMatches isaFlag methodName info then
        if compSupports isa then
          some info.intrinsicID
        else
          some (if info.intrinsicID ≠ D.NI_ARM64_IsSupported_True
                then D.NI_ARM64_PlatformNotSupported
                else D.NI_ARM64_IsSupported_False)
      else
        lookupLoop D compSupports isa isaFlag methodName n (i + 1)

/-- The function `Compiler::lookupHWIntrinsic`. `compSupports` is the capability query of
the compilation. -/
def lookupHWIntrinsic (D : Arm64Decls) (compSupports : InstructionSet → Bool)
    (className : Option String) (methodName : String) : Option NamedIntrinsic :=
  let isa := lookupHWIntrinsicISA D className
  if isa ≠ D.InstructionSet_NONE then
    lookupLoop D compSupports isa (IsaFlag.flag isa) methodName
      (D.NI_HW_INTRINSIC_END - D.NI_HW_INTRINSIC_START) 0
  else
    some D.NI_Illegal

/-- A small instance of the absent declarations: two extension classes and six list rows,
with the enumerators numbered consecutively, so that the row of an id `n` is at index
`n - NI_HW_INTRINSIC_START - 1` and the table has
`NI_HW_INTRINSIC_END - NI_HW_INTRINSIC_START - 1` rows. -/
def sampleDecls : Arm64Decls where
  InstructionSet_Base := 1
  InstructionSet_NONE := 4
  classes := [{ name := "Aes", isa := 2 }, { name := "Simd", isa := 3 }]
  NI_Illegal := 0
  NI_HW_INTRINSIC_START := 10
  NI_ARM64_IsSupported_True := 11
  NI_ARM64_IsSupported_False := 12
  NI_ARM64_PlatformNotSupported := 13
  NI_HW_INTRINSIC_END := 20
  intrinsics :=
    [ { intrinsicID := 14, intrinsicName := "Abs", isaflags := 2 ^ 3, form := Form.SimdUnaryOp },
      { intrinsicID := 15, intrinsicName := "Add", isaflags := 2 ^ 3, form := Form.SimdBinaryOp },
      { intrinsicID := 16, intrinsicName := "BitwiseSelect", isaflags := 2 ^ 3,
        form := Form.SimdSelectOp },
      { intrinsicID := 17, intrinsicName := "Extract", isaflags := 2 ^ 3,
        form := Form.SimdExtractOp },
      { intrinsicID := 18, intrinsicName := "Insert", isaflags := 2 ^ 3,
        form := Form.SimdInsertOp },
      { intrinsicID := 19, intrinsicName := "SetAllVector64", isaflags := 2 ^ 3,
        form := Form.SimdSetAllOp } ]

/-- A capability state in which only the base instruction set is available. -/
def onlyBase (isa : InstructionSet) : Bool := decide (isa = 1)

/-- A capability state in which every instruction set is available. -/
def allSupported (_ : InstructionSet) : Bool := true


/-! ## Lowering: data -/

/-- The enumeration `var_types`. `TYP_UNKNOWN` is the one enumerator this file names; every
other type is carried by its number. -/
inductive var_types
  | TYP_UNKNOWN
  | typ (n : Nat)
  deriving DecidableEq, Repr

/-- The two helper ids this file passes to `impUnsupportedHWIntrinsic`. -/
inductive CorInfoHelpFunc
  | CORINFO_HELP_THROW_PLATFORM_NOT_SUPPORTED
  | CORINFO_HELP_THROW_TYPE_NOT_SUPPORTED
  deriving DecidableEq, Repr

/-- A `CORINFO_CLASS_HANDLE` that is not `nullptr` (a `nullptr` handle is `none`). -/
abbrev CORINFO_CLASS_HANDLE := Nat

/-- A `CORINFO_METHOD_HANDLE`; the file only passes it on. -/
abbrev CORINFO_METHOD_HANDLE := Nat

/-- The members of `CORINFO_SIG_INFO` the file reads; `args` is the handle of the
argument list. -/
structure CORINFO_SIG_INFO where
  retType : Nat
  retTypeClass : Option CORINFO_CLASS_HANDLE
  args : Nat
  numArgs : Nat
  deriving DecidableEq, Repr

/-- Expression trees (`GenTree`), as far as this file builds or inspects them.

* `cnsInt v` is a `GT_CNS_INT` node, what `gtNewIconNode(v)` returns; `IsCnsIntOrI()` holds
  of it and `IconValue()` is `v`.
* `tree n` is any other tree the importer has pushed; `IsCnsIntOrI()` fails on it.
* `simdHWIntrinsic1/2/3` are the results of `gtNewSimdHWIntrinsicNode(type, op1[, op2[, op3]],
  intrinsic, baseType, size)`.
* `scalarHWIntrinsic2` is the result of `gtNewScalarHWIntrinsicNode(type, op1, op2, intrinsic)`.
* `mustThrow helper` is the fault node of the fault-helper collaborator. -/
inductive GenTree
  | cnsInt (value : Int)
  | tree (n : Nat)
  | simdHWIntrinsic1 (type : var_types) (op1 : GenTree) (intrinsic : NamedIntrinsic)
      (baseType : var_types) (size : Nat)
  | simdHWIntrinsic2 (type : var_types) (op1 op2 : GenTree) (intrinsic : NamedIntrinsic)
      (baseType : var_types) (size : Nat)
  | simdHWIntrinsic3 (type : var_types) (op1 op2 op3 : GenTree) (intrinsic : NamedIntrinsic)
      (baseType : var_types) (size : Nat)
  | scalarHWIntrinsic2 (type : var_types) (op1 op2 : GenTree) (intrinsic : NamedIntrinsic)
  | mustThrow (helper : CorInfoHelpFunc)
  deriving DecidableEq, Repr

/-- The method `GenTree::IsCnsIntOrI`. -/
def GenTree.IsCnsIntOrI : GenTree → Bool
  | GenTree.cnsInt _ => true
  | _ => false

/-- The node `gtNewIconNode(value)`. -/
def gtNewIconNode (value : Int) : GenTree := GenTree.cnsInt value

/-- How a call of the lowering ends other than by returning. -/
inductive JitFault
  /-- A failed `assert`. -/
  | assertFailed
  /-- An operand was read from a stack that does not hold it. -/
  | stackUnderflow
  deriving DecidableEq, Repr

/-- The result of `impHWIntrinsic` with the operand stack it leaves: `some node` is a
returned node, `none` is `nullptr` (the call is not expanded now). The top of the stack
is the head of the list. -/
abbrev Lowered := Except JitFault (Option GenTree × List GenTree)

/-- Collaborators of `Compiler` that `hwintrinsicArm64.cpp` calls and that carry no
behaviour of their own here. -/
structure Compiler where
  decls : Arm64Decls
  /-- The class handle that `info.compCompHnd->getArgType(sig, sig->args, &simdClass)`
  stores in `simdClass`. -/
  getArgType : CORINFO_SIG_INFO → Option CORINFO_CLASS_HANDLE
  /-- The returned base type, and the size stored through the second argument. -/
  getBaseTypeAndSizeOfSIMDType : CORINFO_CLASS_HANDLE → var_types × Nat
  getSIMDTypeForSize : Nat → var_types
  genTypeSize : var_types → Nat
  JITtype2varType : Nat → var_types

/-! ## Lowering: collaborators with behaviour -/

/-- Modelled from the spec: `impPopStack` is defined in the importer, outside this file.
The operand source is an evaluation-order stack whose operations "pop the
most-recently-pushed value first". The result is `impPopStack().val` and the stack left. -/
def impPopStack : List GenTree → Except JitFault (GenTree × List GenTree)
  | [] => Except.error JitFault.stackUnderflow
  | t :: rest => Except.ok (t, rest)

/-- Modelled from the spec: `impStackTop(n)` is defined in the importer, outside this file.
The operand source "can peek without popping"; `n` counts from the top.
The result is `impStackTop(n).val`. -/
def impStackTop (n : Nat) (stack : List GenTree) : Except JitFault GenTree :=
  match stack[n]? with
  | some t => Except.ok t
  | none => Except.error JitFault.stackUnderflow

/-- Modelled from the spec: `impSIMDPopStack(type)` is defined outside this file; it is the
"vector-typed popping path", which pops the most recently pushed operand. -/
def impSIMDPopStack (_type : var_types) (stack : List GenTree) :
    Except JitFault (GenTree × List GenTree) :=
  impPopStack stack

/-- Modelled from the spec: `impUnsupportedHWIntrinsic` is defined outside this file. The
collaborator is "a fault/throw-helper node constructor accepting a fault-kind tag", and the
fault node is "always produced regardless of `mustExpand`". -/
def impUnsupportedHWIntrinsic (helper : CorInfoHelpFunc) (_method : CORINFO_METHOD_HANDLE)
    (_sig : CORINFO_SIG_INFO) (_mustExpand : Bool) (stack : List GenTree) : Lowered :=
  Except.ok (some (GenTree.mustThrow helper), stack)

/-- Modelled from the spec: `getSIMDVectorLength` is defined outside this file; the lane
count of a vector is `vectorByteWidth / elementSize`. -/
def getSIMDVectorLength (C : Compiler) (simdSize : Nat) (baseType : var_types) : Nat :=
  simdSize / C.genTypeSize baseType

/-! ## Lowering: the functions of the file -/

/-- The function `Compiler::impCheckImmediate`:
`immediateOp->IsCnsIntOrI() && (immediateOp->AsIntConCommon()->IconValue() < max)`.
`max` is an `unsigned int`; `IconValue()` is a signed 64-bit `ssize_t`, so the comparison
is made on signed 64-bit values. -/
def impCheckImmediate (immediateOp : GenTree) (max : Nat) : Bool :=
  match immediateOp with
  | GenTree.cnsInt value => decide (value < ((max % 2 ^ 32 : Nat) : Int))
  | _ => false

/-- The first `switch` of `impHWIntrinsic`: the class handle left in `simdClass`. -/
def simdClassOf (C : Compiler) (sig : CORINFO_SIG_INFO) : Form → Option CORINFO_CLASS_HANDLE
  | Form.SimdBinaryOp => sig.retTypeClass
  | Form.SimdInsertOp => sig.retTypeClass
  | Form.SimdSelectOp => sig.retTypeClass
  | Form.SimdSetAllOp => sig.retTypeClass
  | Form.SimdUnaryOp => sig.retTypeClass
  | Form.SimdExtractOp => C.getArgType sig
  | _ => none

/-- The condition of the `if` in the two lane-indexed cases of `impHWIntrinsic`:
`!mustExpand && !impCheckImmediate(impStackTop(slot).val, getSIMDVectorLength(...))`.
With `mustExpand` set the stack is not looked at. -/
def immediateRejected (C : Compiler) (mustExpand : Bool) (slot : Nat) (simdSizeBytes : Nat)
    (simdBaseType : var_types) (stack : List GenTree) : Except JitFault Bool :=
  if mustExpand then Except.ok false
  else
    match impStackTop slot stack with
    | Except.error e => Except.error e
    | Except.ok top =>
      Except.ok (!impCheckImmediate top (getSIMDVectorLength C simdSizeBytes simdBaseType))

/-- The second `switch` of `impHWIntrinsic`, with the locals `simdType`, `simdBaseType` and
`simdSizeBytes` as the type check left them. -/
def impHWIntrinsicForm (C : Compiler) (intrinsic : NamedIntrinsic)
    (method : CORINFO_METHOD_HANDLE) (sig : CORINFO_SIG_INFO) (mustExpand : Bool)
    (simdType simdBaseType : var_types) (simdSizeBytes : Nat) (stack : List GenTree) :
    Form → Lowered
  | Form.IsSupported =>
    Except.ok
      (some (gtNewIconNode (if intrinsic = C.decls.NI_ARM64_IsSupported_True then 1 else 0)),
        stack)
  | Form.Unsupported =>
    impUnsupportedHWIntrinsic CorInfoHelpFunc.CORINFO_HELP_THROW_PLATFORM_NOT_SUPPORTED
      method sig mustExpand stack
  | Form.SimdBinaryOp => do
    let (op2, s1) ← impSIMDPopStack simdType stack
    let (op1, s2) ← impSIMDPopStack simdType s1
    pure (some (GenTree.simdHWIntrinsic2 simdType op1 op2 intrinsic simdBaseType simdSizeBytes),
      s2)
  | Form.SimdSelectOp => do
    let (op3, s1) ← impSIMDPopStack simdType stack
    let (op2, s2) ← impSIMDPopStack simdType s1
    let (op1, s3) ← impSIMDPopStack simdType s2
    pure (some (GenTree.simdHWIntrinsic3 simdType op1 op2 op3 intrinsic simdBaseType
      simdSizeBytes), s3)
  | Form.SimdSetAllOp => do
    let (op1, s1) ← impPopStack stack
    pure (some (GenTree.simdHWIntrinsic1 simdType op1 intrinsic simdBaseType simdSizeBytes), s1)
  | Form.SimdUnaryOp => do
    let (op1, s1) ← impSIMDPopStack simdType stack
    pure (some (GenTree.simdHWIntrinsic1 simdType op1 intrinsic simdBaseType simdSizeBytes), s1)
  | Form.SimdExtractOp => do
    let rejected ← immediateRejected C mustExpand 0 simdSizeBytes simdBaseType stack
    if rejected then
      pure (none, stack)
    else
      let (op2, s1) ← impPopStack stack
      let (op1, s2) ← impSIMDPopStack simdType s1
      pure (some (GenTree.scalarHWIntrinsic2 (C.JITtype2varType sig.retType) op1 op2 intrinsic),
        s2)
  | Form.SimdInsertOp => do
    let rejected ← immediateRejected C mustExpand 1 simdSizeBytes simdBaseType stack
    if rejected then
      pure (none, stack)
    else
      let (op3, s1) ← impPopStack stack
      let (op2, s2) ← impPopStack s1
      let (op1, s3) ← impSIMDPopStack simdType s2
      pure (some (GenTree.simdHWIntrinsic3 simdType op1 op2 op3 intrinsic simdBaseType
        simdSizeBytes), s3)
  | Form.otherForm _ => Except.error JitFault.assertFailed

/-- The function `Compiler::impHWIntrinsic`. -/
def impHWIntrinsic (C : Compiler) (intrinsic : NamedIntrinsic) (method : CORINFO_METHOD_HANDLE)
    (sig : CORINFO_SIG_INFO) (mustExpand : Bool) (stack : List GenTree) : Lowered :=
  match getHWIntrinsicInfo C.decls intrinsic with
  | none => Except.error JitFault.assertFailed
  | some info =>
    match simdClassOf C sig info.form with
    | none =>
      impHWIntrinsicForm C intrinsic method sig mustExpand var_types.TYP_UNKNOWN
        var_types.TYP_UNKNOWN 0 stack info.form
    | some simdClass =>
      let simdBaseType := (C.getBaseTypeAndSizeOfSIMDType simdClass).1
      let simdSizeBytes := (C.getBaseTypeAndSizeOfSIMDType simdClass).2
      if simdBaseType = var_types.TYP_UNKNOWN then
        impUnsupportedHWIntrinsic CorInfoHelpFunc.CORINFO_HELP_THROW_TYPE_NOT_SUPPORTED
          method sig mustExpand stack
      else
        impHWIntrinsicForm C intrinsic method sig mustExpand
          (C.getSIMDTypeForSize simdSizeBytes) simdBaseType simdSizeBytes stack info.form

/-- A small instance of the collaborators: class handle `64` is a vector of eight bytes
of 4-byte elements (two lanes), class handle `128` a vector of sixteen bytes of 4-byte
elements (four lanes), and every other class handle is not a supported vector type. -/
def sampleCompiler : Compiler where
  decls := sampleDecls
  getArgType := fun sig => if sig.args = 0 then none else some sig.args
  getBaseTypeAndSizeOfSIMDType := fun cls =>
    if cls = 64 then (var_types.typ 4, 8)
    else if cls = 128 then (var_types.typ 4, 16)
    else (var_types.TYP_UNKNOWN, 0)
  getSIMDTypeForSize := fun size => var_types.typ (100 + size)
  genTypeSize := fun t =>
    match t with
    | var_types.TYP_UNKNOWN => 0
    | var_types.typ n => n
  JITtype2varType := fun t => var_types.typ t

/-- The declarations of `sampleDecls` with one more list row, a second row of class `Simd`
named `Add` (id 20), so that two rows match the method name `Add`. -/
def tiedDecls : Arm64Decls :=
  { sampleDecls with
    NI_HW_INTRINSIC_END := 21
    intrinsics := sampleDecls.intrinsics ++
      [{ intrinsicID := 20, intrinsicName := "Add", isaflags := 2 ^ 3,
         form := Form.SimdUnaryOp }] }

/-! ## Name resolution: the scan seen from outside -/

/-- The indices `i` at which the `for` loop of `lookupHWIntrinsic` evaluates
`hwIntrinsicInfoArray[i]`, in the order of the reads; the recursion is that of
`lookupLoop`. The list stops at the `break`, at the end of the loop, or at a read that is
outside the table. -/
def lookupLoopReads (D : Arm64Decls) (isaFlag : Nat) (methodName : String) :
    Nat → Nat → List Nat
  | 0, _ => []
  | n + 1, i =>
    i :: (match (hwIntrinsicInfoArray D)[i]? with
      | none => []
      | some info =>
        if rowMatches isaFlag methodName info then []
        else lookupLoopReads D isaFlag methodName n (i + 1))

/-- The table indices read by a call of `lookupHWIntrinsic`: none when the class name does
not resolve, those of the loop otherwise. -/
def lookupHWIntrinsicReads (D : Arm64Decls) (className : Option String)
    (methodName : String) : List Nat :=
  let isa := lookupHWIntrinsicISA D className
  if isa ≠ D.InstructionSet_NONE then
    lookupLoopReads D (IsaFlag.flag isa) methodName
      (D.NI_HW_INTRINSIC_END - D.NI_HW_INTRINSIC_START) 0
  else
    []

/-- Name resolution as the specification words it (`resolve`, steps 1 to 6): resolve the
namespace, and return the illegal id if it is unresolved; take the single-bit flag of the
instruction set; the match is the first descriptor, in declaration order, whose required
capabilities intersect that bit and whose name equals `methodName`; without a match return
the illegal id; with a match return its id if the capability is supported, "is-supported-false"
if it is unsupported and the match is the "is-supported-true" sentinel, and
"platform-not-supported" otherwise. -/
def resolveSpec (D : Arm64Decls) (isSupportedFn : InstructionSet → Bool)
    (namespaceName : Option String) (methodName : String) : NamedIntrinsic :=
  let isa := lookupHWIntrinsicISA D namespaceName
  if isa = D.InstructionSet_NONE then D.NI_Illegal
  else
    match (hwIntrinsicInfoArray D).find?
        (fun d => decide (IsaFlag.flag isa &&& d.isaflags ≠ 0) &&
          decide (d.intrinsicName = methodName)) with
    | none => D.NI_Illegal
    | some d =>
      if isSupportedFn isa then d.intrinsicID
      else if d.intrinsicID = D.NI_ARM64_IsSupported_True then D.NI_ARM64_IsSupported_False
      else D.NI_ARM64_PlatformNotSupported

/-! ## Well-formedness of the absent declarations -/

/-- What C++ requires of the `HARDWARE_INTRINSIC_CLASS` lines for the enumeration
`InstructionSet` to compile: each `isa` is a nonempty identifier, no two lines name the
same `InstructionSet_##isa`, and none of them is `InstructionSet_Base`. -/
abbrev Arm64Decls.classNamesOk (D : Arm64Decls) : Prop :=
  (D.classes.map IsaClass.name).Nodup ∧ ∀ c ∈ D.classes, c.name ≠ "Base" ∧ c.name ≠ ""

/-- The enumerators of `InstructionSet` the file uses have pairwise different values. -/
abbrev Arm64Decls.instructionSetsDistinct (D : Arm64Decls) : Prop :=
  (D.InstructionSet_Base :: D.InstructionSet_NONE :: D.classes.map IsaClass.isa).Nodup

/-- The three sentinel ids and `NI_Illegal` have pairwise different values. -/
abbrev Arm64Decls.sentinelsDistinct (D : Arm64Decls) : Prop :=
  [D.NI_Illegal, D.NI_ARM64_IsSupported_True, D.NI_ARM64_IsSupported_False,
    D.NI_ARM64_PlatformNotSupported].Nodup

/-- The layout `getHWIntrinsicInfo` relies on: the table holds one row for each id strictly
between `NI_HW_INTRINSIC_START` and `NI_HW_INTRINSIC_END`, the row of id `n` at index
`n - NI_HW_INTRINSIC_START - 1`; so it has
`NI_HW_INTRINSIC_END - NI_HW_INTRINSIC_START - 1` rows. -/
abbrev Arm64Decls.oneRowPerId (D : Arm64Decls) : Prop :=
  D.NI_HW_INTRINSIC_START < D.NI_HW_INTRINSIC_END ∧
  (hwIntrinsicInfoArray D).length = D.NI_HW_INTRINSIC_END - D.NI_HW_INTRINSIC_START - 1 ∧
  ∀ i, i < (hwIntrinsicInfoArray D).length →
    ((hwIntrinsicInfoArray D)[i]?).map HWIntrinsicInfo.intrinsicID =
      some (D.NI_HW_INTRINSIC_START + 1 + i)

/-! ## Name resolution: helper lemmas -/

/-- The value `lookupHWIntrinsic` assigns to `result` once row `info` has matched. -/
theorem lookupLoop_of_find (D : Arm64Decls) (compSupports : InstructionSet → Bool)
    (isa : InstructionSet) (isaFlag : Nat) (methodName : String) (info : HWIntrinsicInfo) :
    ∀ (n i : Nat), (hwIntrinsicInfoArray D).length ≤ i + n →
      ((hwIntrinsicInfoArray D).drop i).find? (rowMatches isaFlag methodName) = some info →
      lookupLoop D compSupports isa isaFlag methodName n i =
        some (if compSupports isa then info.intrinsicID
              else if info.intrinsicID ≠ D.NI_ARM64_IsSupported_True
                then D.NI_ARM64_PlatformNotSupported
                else D.NI_ARM64_IsSupported_False) := by
  intro n
  induction n with
  | zero =>
    intro i hlen hfind
    have hnil : (hwIntrinsicInfoArray D).drop i = [] :=
      List.drop_eq_nil_of_le (by omega)
    rw [hnil] at hfind
    simp at hfind
  | succ n ih =>
    intro i hlen hfind
    unfold lookupLoop
    cases hrow : (hwIntrinsicInfoArray D)[i]? with
    | none =>
      have hnil : (hwIntrinsicInfoArray D).drop i = [] :=
        List.drop_eq_nil_of_le (List.getElem?_eq_none_iff.mp hrow)
      rw [hnil] at hfind
      simp at hfind
    | some d =>
      have hi : i < (hwIntrinsicInfoArray D).length := by
        by_contra hcon
        have := List.getElem?_eq_none_iff.mpr (Nat.le_of_not_lt hcon)
        rw [this] at hrow
        cases hrow
      have hd : (hwIntrinsicInfoArray D)[i] = d := by
        have := List.getElem?_eq_getElem hi
        rw [this] at hrow
        exact Option.some.inj hrow
      have hdrop : (hwIntrinsicInfoArray D).drop i = d :: (hwIntrinsicInfoArray D).drop (i + 1) := by
        rw [← hd]
        exact List.drop_eq_getElem_cons hi
      rw [hdrop, List.find?_cons] at hfind
      cases hm : rowMatches isaFlag methodName d with
      | true =>
        rw [hm] at hfind
        have hinfo : d = info := Option.some.inj hfind
        subst hinfo
        show (if rowMatches isaFlag methodName d = true then _ else _) = _
        rw [if_pos hm]
        cases compSupports isa <;> rfl
      | false =>
        rw [hm] at hfind
        simp only [Bool.false_eq_true, if_false] at hfind
        show (if rowMatches isaFlag methodName d = true then _ else _) = _
        rw [if_neg (fun h => Bool.false_ne_true (hm.symm.trans h))]
        exact ih (i + 1) (by omega) hfind

/-- One iteration of the scan on a row that matches. -/
theorem lookupLoop_of_row (D : Arm64Decls) (compSupports : InstructionSet → Bool)
    (isa : InstructionSet) (isaFlag : Nat) (methodName : String) (info : HWIntrinsicInfo)
    (n i : Nat) (hrow : (hwIntrinsicInfoArray D)[i]? = some info)
    (hm : rowMatches isaFlag methodName info = true) :
    lookupLoop D compSupports isa isaFlag methodName (n + 1) i =
      some (if compSupports isa then info.intrinsicID
            else if info.intrinsicID ≠ D.NI_ARM64_IsSupported_True
              then D.NI_ARM64_PlatformNotSupported
              else D.NI_ARM64_IsSupported_False) := by
  unfold lookupLoop
  rw [hrow]
  show (if rowMatches isaFlag methodName info = true then _ else _) = _
  rw [if_pos hm]
  cases compSupports isa <;> rfl

/-- A scan that accepts no row from index `i` on, and whose bound lies beyond the table,
reads the row at index `length`, which does not exist. -/
theorem lookupLoop_no_match_past_table (D : Arm64Decls) (compSupports : InstructionSet → Bool)
    (isa : InstructionSet) (isaFlag : Nat) (methodName : String) :
    ∀ (n i : Nat), i ≤ (hwIntrinsicInfoArray D).length →
      (hwIntrinsicInfoArray D).length < i + n →
      (∀ d ∈ (hwIntrinsicInfoArray D).drop i, rowMatches isaFlag methodName d = false) →
      lookupLoop D compSupports isa isaFlag methodName n i = none := by
  intro n
  induction n with
  | zero =>
    intro i hi hlen _
    omega
  | succ n ih =>
    intro i hi hlen hno
    unfold lookupLoop
    cases hrow : (hwIntrinsicInfoArray D)[i]? with
    | none => rfl
    | some d =>
      have hlt : i < (hwIntrinsicInfoArray D).length := by
        by_contra hcon
        have := List.getElem?_eq_none_iff.mpr (Nat.le_of_not_lt hcon)
        rw [this] at hrow
        cases hrow
      have hd : (hwIntrinsicInfoArray D)[i] = d := by
        have := List.getElem?_eq_getElem hlt
        rw [this] at hrow
        exact Option.some.inj hrow
      have hdrop : (hwIntrinsicInfoArray D).drop i = d :: (hwIntrinsicInfoArray D).drop (i + 1) := by
        rw [← hd]
        exact List.drop_eq_getElem_cons hlt
      have hm : rowMatches isaFlag methodName d = false :=
        hno d (by rw [hdrop]; exact List.mem_cons_self _ _)
      show (if rowMatches isaFlag methodName d = true then _ else _) = _
      rw [if_neg (fun h => Bool.false_ne_true (hm.symm.trans h))]
      refine ih (i + 1) hlt (by omega) ?_
      intro e he
      exact hno e (by rw [hdrop]; exact List.mem_cons_of_mem _ he)

/-- A class name that does not resolve gives `NI_Illegal`: the loop is not entered. -/
theorem lookupHWIntrinsic_unresolved_class (D : Arm64Decls)
    (compSupports : InstructionSet → Bool) (className : Option String) (methodName : String)
    (hnone : lookupHWIntrinsicISA D className = D.InstructionSet_NONE) :
    lookupHWIntrinsic D compSupports className methodName = some D.NI_Illegal := by
  unfold lookupHWIntrinsic
  simp [hnone]

/-- The single bit of an instruction set below 64 lies in `EveryISA`. -/
theorem flag_and_EveryISA (isa : InstructionSet) (h : isa < 64) :
    IsaFlag.flag isa &&& IsaFlag.EveryISA ≠ 0 := by
  unfold IsaFlag.flag IsaFlag.EveryISA
  rw [Nat.and_pow_two_sub_one_eq_mod, Nat.mod_mod, Nat.one_shiftLeft,
    Nat.mod_eq_of_lt (Nat.pow_lt_pow_right (by decide) h)]
  exact Nat.pos_iff_ne_zero.mp (Nat.pow_pos (by decide))

/-- A resolved class and a first matching row: the value of `lookupHWIntrinsic`. -/
theorem lookupHWIntrinsic_of_find (D : Arm64Decls) (compSupports : InstructionSet → Bool)
    (className : Option String) (methodName : String) (info : HWIntrinsicInfo)
    (hisa : lookupHWIntrinsicISA D className ≠ D.InstructionSet_NONE)
    (hrows : (hwIntrinsicInfoArray D).length ≤
      D.NI_HW_INTRINSIC_END - D.NI_HW_INTRINSIC_START)
    (hfind : (hwIntrinsicInfoArray D).find?
      (rowMatches (IsaFlag.flag (lookupHWIntrinsicISA D className)) methodName) = some info) :
    lookupHWIntrinsic D compSupports className methodName =
      some (if compSupports (lookupHWIntrinsicISA D className) then info.intrinsicID
            else if info.intrinsicID ≠ D.NI_ARM64_IsSupported_True
              then D.NI_ARM64_PlatformNotSupported
              else D.NI_ARM64_IsSupported_False) := by
  unfold lookupHWIntrinsic
  simp only [hisa, ne_eq, not_false_eq_true, if_true]
  exact lookupLoop_of_find D compSupports _ _ methodName info _ 0 (by omega)
    (by simpa using hfind)

/-- A resolved class and no matching row, with the loop bound beyond the table (as it is
when the table has `NI_HW_INTRINSIC_END - NI_HW_INTRINSIC_START - 1` rows): the scan
reads outside the table. -/
theorem lookupHWIntrinsic_of_no_match (D : Arm64Decls) (compSupports : InstructionSet → Bool)
    (className : Option String) (methodName : String)
    (hisa : lookupHWIntrinsicISA D className ≠ D.InstructionSet_NONE)
    (hrows : (hwIntrinsicInfoArray D).length <
      D.NI_HW_INTRINSIC_END - D.NI_HW_INTRINSIC_START)
    (hfind : (hwIntrinsicInfoArray D).find?
      (rowMatches (IsaFlag.flag (lookupHWIntrinsicISA D className)) methodName) = none) :
    lookupHWIntrinsic D compSupports className methodName = none := by
  unfold lookupHWIntrinsic
  simp only [hisa, ne_eq, not_false_eq_true, if_true]
  refine lookupLoop_no_match_past_table D compSupports _ _ methodName _ 0 (Nat.zero_le _)
    (by omega) ?_
  intro d hd
  rw [List.drop_zero] at hd
  have := List.find?_eq_none.mp hfind d hd
  simpa using this

/-- The class list gives a value exactly when some line carries the name. -/
theorem lookupClassList_eq_none_iff (text : String) (l : List IsaClass) :
    lookupClassList text l = none ↔ ∀ c ∈ l, text ≠ c.name := by
  induction l with
  | nil => simp [lookupClassList]
  | cons c0 rest ih =>
    unfold lookupClassList
    by_cases h : text = c0.name
    · simp [h]
    · simp [h, ih]

/-- A value returned from the class list is the enumerator of a line with that name. -/
theorem lookupClassList_some_mem (text : String) (l : List IsaClass) (v : InstructionSet)
    (h : lookupClassList text l = some v) : ∃ c ∈ l, c.name = text ∧ c.isa = v := by
  induction l with
  | nil => simp [lookupClassList] at h
  | cons c0 rest ih =>
    unfold lookupClassList at h
    by_cases hc : text = c0.name
    · rw [if_pos hc] at h
      exact ⟨c0, List.mem_cons_self _ _, hc.symm, Option.some.inj h⟩
    · rw [if_neg hc] at h
      obtain ⟨c, hmem, hname, hv⟩ := ih h
      exact ⟨c, List.mem_cons_of_mem _ hmem, hname, hv⟩

/-- With pairwise different names, the name of a line gives the enumerator of that line. -/
theorem lookupClassList_of_mem (l : List IsaClass) (hnodup : (l.map IsaClass.name).Nodup)
    (c : IsaClass) (hc : c ∈ l) : lookupClassList c.name l = some c.isa := by
  induction l with
  | nil => cases hc
  | cons c0 rest ih =>
    rw [List.map_cons, List.nodup_cons] at hnodup
    unfold lookupClassList
    by_cases hname : c.name = c0.name
    · rw [if_pos hname]
      rcases List.mem_cons.mp hc with heq | hrest
      · rw [heq]
      · exact absurd (hname ▸ List.mem_map_of_mem IsaClass.name hrest) hnodup.1
    · rw [if_neg hname]
      rcases List.mem_cons.mp hc with heq | hrest
      · exact absurd (by rw [heq]) hname
      · exact ih hnodup.2 hrest

/-! ## Name resolution: the claims -/

/-- C1: when the class name resolves to an instruction set, the scan finds a matching
descriptor `info`, and `compSupports` is false for that instruction set, then
`lookupHWIntrinsic` returns `NI_ARM64_IsSupported_False` if `info` is the
`NI_ARM64_IsSupported_True` descriptor and `NI_ARM64_PlatformNotSupported` for every other
matched descriptor; the result is always one of these two substitutes. -/
theorem lookupHWIntrinsic_unsupported_isa (D : Arm64Decls)
    (compSupports : InstructionSet → Bool) (className : Option String) (methodName : String)
    (info : HWIntrinsicInfo)
    (hisa : lookupHWIntrinsicISA D className ≠ D.InstructionSet_NONE)
    (hrows : (hwIntrinsicInfoArray D).length ≤
      D.NI_HW_INTRINSIC_END - D.NI_HW_INTRINSIC_START)
    (hfind : (hwIntrinsicInfoArray D).find?
      (rowMatches (IsaFlag.flag (lookupHWIntrinsicISA D className)) methodName) = some info)
    (hsup : compSupports (lookupHWIntrinsicISA D className) = false) :
    (info.intrinsicID = D.NI_ARM64_IsSupported_True →
      lookupHWIntrinsic D compSupports className methodName =
        some D.NI_ARM64_IsSupported_False) ∧
    (info.intrinsicID ≠ D.NI_ARM64_IsSupported_True →
      lookupHWIntrinsic D compSupports className methodName =
        some D.NI_ARM64_PlatformNotSupported) ∧
    (lookupHWIntrinsic D compSupports className methodName =
        some D.NI_ARM64_IsSupported_False ∨
      lookupHWIntrinsic D compSupports className methodName =
        some D.NI_ARM64_PlatformNotSupported) := by
  have hval := lookupHWIntrinsic_of_find D compSupports className methodName info hisa hrows hfind
  rw [hsup] at hval
  simp only [Bool.false_eq_true, if_false] at hval
  refine ⟨?_, ?_, ?_⟩
  · intro hid
    rw [hval, if_neg (not_not.mpr hid)]
  · intro hid
    rw [hval, if_pos hid]
  · by_cases hid : info.intrinsicID = D.NI_ARM64_IsSupported_True
    · left
      rw [hval, if_neg (not_not.mpr hid)]
    · right
      rw [hval, if_pos hid]

/-- Witness for C1: class `Simd`, method `Add`, with only the base set available. -/
theorem lookupHWIntrinsic_unsupported_isa_witness :
    lookupHWIntrinsic sampleDecls onlyBase (some "Simd") "Add" = some 13 :=
  (lookupHWIntrinsic_unsupported_isa sampleDecls onlyBase (some "Simd") "Add"
    { intrinsicID := 15, intrinsicName := "Add", isaflags := 2 ^ 3, form := Form.SimdBinaryOp }
    (by decide) (by decide) (by decide) (by decide)).2.1 (by decide)

/-- Counterexample for C2: the row of `NI_ARM64_IsSupported_False` has form `IsSupported`,
and class `Simd` with method name `::NI_ARM64_IsSupported_False` matches it; with `Simd`
unavailable the result is `NI_ARM64_PlatformNotSupported`, not
`NI_ARM64_IsSupported_False`. -/
theorem lookupHWIntrinsic_form_split_counterexample :
    lookupHWIntrinsicISA sampleDecls (some "Simd") = 3 ∧
    (hwIntrinsicInfoArray sampleDecls).find?
        (rowMatches (IsaFlag.flag 3) "::NI_ARM64_IsSupported_False") =
      some { intrinsicID := sampleDecls.NI_ARM64_IsSupported_False,
             intrinsicName := "::NI_ARM64_IsSupported_False",
             isaflags := IsaFlag.EveryISA, form := Form.IsSupported } ∧
    onlyBase 3 = false ∧
    lookupHWIntrinsic sampleDecls onlyBase (some "Simd") "::NI_ARM64_IsSupported_False" =
      some sampleDecls.NI_ARM64_PlatformNotSupported ∧
    lookupHWIntrinsic sampleDecls onlyBase (some "Simd") "::NI_ARM64_IsSupported_False" ≠
      some sampleDecls.NI_ARM64_IsSupported_False := by
  decide

/-- C2 (amended): for a known namespace/method pair whose capability is unsupported, the
case split is on the matched descriptor's id. The `get_IsSupported` descriptor (form
`IsSupported`, id `NI_ARM64_IsSupported_True`) gives `NI_ARM64_IsSupported_False`; every
descriptor whose form is not `IsSupported` gives `NI_ARM64_PlatformNotSupported`; and so
does a descriptor of form `IsSupported` with another id, such as the
`NI_ARM64_IsSupported_False` row. (`hids`: the id `NI_ARM64_IsSupported_True` is carried
by rows of form `IsSupported` only.) -/
theorem lookupHWIntrinsic_unsupported_by_id (D : Arm64Decls)
    (compSupports : InstructionSet → Bool) (className : Option String) (methodName : String)
    (info : HWIntrinsicInfo)
    (hisa : lookupHWIntrinsicISA D className ≠ D.InstructionSet_NONE)
    (hrows : (hwIntrinsicInfoArray D).length ≤
      D.NI_HW_INTRINSIC_END - D.NI_HW_INTRINSIC_START)
    (hfind : (hwIntrinsicInfoArray D).find?
      (rowMatches (IsaFlag.flag (lookupHWIntrinsicISA D className)) methodName) = some info)
    (hsup : compSupports (lookupHWIntrinsicISA D className) = false)
    (hids : ∀ d ∈ hwIntrinsicInfoArray D,
      d.intrinsicID = D.NI_ARM64_IsSupported_True → d.form = Form.IsSupported) :
    (info.form = Form.IsSupported ∧ info.intrinsicID = D.NI_ARM64_IsSupported_True →
      lookupHWIntrinsic D compSupports className methodName =
        some D.NI_ARM64_IsSupported_False) ∧
    (info.form ≠ Form.IsSupported →
      lookupHWIntrinsic D compSupports className methodName =
        some D.NI_ARM64_PlatformNotSupported) ∧
    (info.form = Form.IsSupported ∧ info.intrinsicID ≠ D.NI_ARM64_IsSupported_True →
      lookupHWIntrinsic D compSupports className methodName =
        some D.NI_ARM64_PlatformNotSupported) := by
  have hval := lookupHWIntrinsic_of_find D compSupports className methodName info hisa hrows hfind
  rw [hsup] at hval
  simp only [Bool.false_eq_true, if_false] at hval
  have hmem : info ∈ hwIntrinsicInfoArray D := List.mem_of_find?_eq_some hfind
  refine ⟨?_, ?_, ?_⟩
  · intro h
    rw [hval, if_neg (not_not.mpr h.2)]
  · intro hform
    have hid : info.intrinsicID ≠ D.NI_ARM64_IsSupported_True :=
      fun h => hform (hids info hmem h)
    rw [hval, if_pos hid]
  · intro h
    rw [hval, if_pos h.2]

/-- Witness for C2 (amended): class `Simd`, method `::NI_ARM64_IsSupported_False`, with
only the base set available. -/
theorem lookupHWIntrinsic_unsupported_by_id_witness :
    lookupHWIntrinsic sampleDecls onlyBase (some "Simd") "::NI_ARM64_IsSupported_False" =
      some 13 :=
  (lookupHWIntrinsic_unsupported_by_id sampleDecls onlyBase (some "Simd")
    "::NI_ARM64_IsSupported_False"
    { intrinsicID := 12, intrinsicName := "::NI_ARM64_IsSupported_False",
      isaflags := IsaFlag.EveryISA, form := Form.IsSupported }
    (by decide) (by decide) (by decide) (by decide) (by decide)).2.2 (by decide)

/-- C3: when the class name resolves, the scan finds a matching descriptor `info`, and
`compSupports` is true for the instruction set, `lookupHWIntrinsic` returns the id of
`info` unchanged. -/
theorem lookupHWIntrinsic_supported_isa (D : Arm64Decls)
    (compSupports : InstructionSet → Bool) (className : Option String) (methodName : String)
    (info : HWIntrinsicInfo)
    (hisa : lookupHWIntrinsicISA D className ≠ D.InstructionSet_NONE)
    (hrows : (hwIntrinsicInfoArray D).length ≤
      D.NI_HW_INTRINSIC_END - D.NI_HW_INTRINSIC_START)
    (hfind : (hwIntrinsicInfoArray D).find?
      (rowMatches (IsaFlag.flag (lookupHWIntrinsicISA D className)) methodName) = some info)
    (hsup : compSupports (lookupHWIntrinsicISA D className) = true) :
    lookupHWIntrinsic D compSupports className methodName = some info.intrinsicID := by
  have hval := lookupHWIntrinsic_of_find D compSupports className methodName info hisa hrows hfind
  rw [hsup] at hval
  simpa using hval

/-- Witness for C3: class `Simd`, method `Extract`, every set available. -/
theorem lookupHWIntrinsic_supported_isa_witness :
    lookupHWIntrinsic sampleDecls allSupported (some "Simd") "Extract" = some 17 :=
  lookupHWIntrinsic_supported_isa sampleDecls allSupported (some "Simd") "Extract"
    { intrinsicID := 17, intrinsicName := "Extract", isaflags := 2 ^ 3,
      form := Form.SimdExtractOp }
    (by decide) (by decide) (by decide) (by decide)

/-- C4, at the failing input: the table of `sampleDecls` has
`NI_HW_INTRINSIC_END - NI_HW_INTRINSIC_START - 1` rows, class `Base` resolves, no row
matches method name `NoSuchMethod`, and for every capability state the scan ends by
reading the row at index `length` (outside the table) instead of returning `NI_Illegal`. -/
theorem lookupHWIntrinsic_unmatched_method_past_table :
    (hwIntrinsicInfoArray sampleDecls).length =
      sampleDecls.NI_HW_INTRINSIC_END - sampleDecls.NI_HW_INTRINSIC_START - 1 ∧
    lookupHWIntrinsicISA sampleDecls (some "Base") = sampleDecls.InstructionSet_Base ∧
    sampleDecls.InstructionSet_Base ≠ sampleDecls.InstructionSet_NONE ∧
    (hwIntrinsicInfoArray sampleDecls).find?
      (rowMatches (IsaFlag.flag sampleDecls.InstructionSet_Base) "NoSuchMethod") = none ∧
    (∀ compSupports : InstructionSet → Bool,
      lookupHWIntrinsic sampleDecls compSupports (some "Base") "NoSuchMethod" = none) ∧
    lookupHWIntrinsic sampleDecls allSupported (some "Base") "NoSuchMethod" ≠
      some sampleDecls.NI_Illegal := by
  refine ⟨by decide, by decide, by decide, by decide, ?_, by decide⟩
  intro compSupports
  rfl

/-- C5: `lookupHWIntrinsicISA` returns `InstructionSet_Base` for exactly the text `Base`,
the enumerator of a class line for exactly the text of that line, and
`InstructionSet_NONE` for `nullptr`, for the empty text, and for exactly the texts that
equal none of these names. String equality is whole-string and case-sensitive. -/
theorem lookupHWIntrinsicISA_exact (D : Arm64Decls) (hnames : D.classNamesOk)
    (hisas : D.instructionSetsDistinct) :
    (∀ className, lookupHWIntrinsicISA D className = D.InstructionSet_Base ↔
      className = some "Base") ∧
    (∀ c ∈ D.classes, ∀ className, lookupHWIntrinsicISA D className = c.isa ↔
      className = some c.name) ∧
    (∀ className, lookupHWIntrinsicISA D className = D.InstructionSet_NONE ↔
      (className = none ∨
        ∃ text, className = some text ∧ text ≠ "Base" ∧ ∀ c ∈ D.classes, text ≠ c.name)) ∧
    lookupHWIntrinsicISA D (some "") = D.InstructionSet_NONE := by
  obtain ⟨hnodup, hident⟩ := hnames
  obtain ⟨hB, hN, hcc⟩ : D.InstructionSet_Base ∉
        D.InstructionSet_NONE :: D.classes.map IsaClass.isa ∧
      D.InstructionSet_NONE ∉ D.classes.map IsaClass.isa ∧
      (D.classes.map IsaClass.isa).Nodup := by
    have h1 := List.nodup_cons.mp hisas
    exact ⟨h1.1, (List.nodup_cons.mp h1.2).1, (List.nodup_cons.mp h1.2).2⟩
  have hBN : D.InstructionSet_Base ≠ D.InstructionSet_NONE :=
    fun h => hB (h ▸ List.mem_cons_self _ _)
  have hBc : ∀ c ∈ D.classes, c.isa ≠ D.InstructionSet_Base :=
    fun c hc h => hB (List.mem_cons_of_mem _ (h ▸ List.mem_map_of_mem IsaClass.isa hc))
  have hNc : ∀ c ∈ D.classes, c.isa ≠ D.InstructionSet_NONE :=
    fun c hc h => hN (h ▸ List.mem_map_of_mem IsaClass.isa hc)
  -- the value on a text, by cases
  have hbase : lookupHWIntrinsicISA D (some "Base") = D.InstructionSet_Base := by
    simp [lookupHWIntrinsicISA]
  have hclass : ∀ c ∈ D.classes, lookupHWIntrinsicISA D (some c.name) = c.isa := by
    intro c hc
    simp [lookupHWIntrinsicISA, (hident c hc).1, lookupClassList_of_mem D.classes hnodup c hc]
  have hother : ∀ text, text ≠ "Base" → (∀ c ∈ D.classes, text ≠ c.name) →
      lookupHWIntrinsicISA D (some text) = D.InstructionSet_NONE := by
    intro text htb hno
    simp [lookupHWIntrinsicISA, htb, (lookupClassList_eq_none_iff text D.classes).mpr hno]
  -- every text is of one of the three kinds
  have hcases : ∀ text : String, text = "Base" ∨ (∃ c ∈ D.classes, text = c.name) ∨
      (text ≠ "Base" ∧ ∀ c ∈ D.classes, text ≠ c.name) := by
    intro text
    by_cases h1 : text = "Base"
    · exact Or.inl h1
    · by_cases h2 : ∃ c ∈ D.classes, text = c.name
      · exact Or.inr (Or.inl h2)
      · refine Or.inr (Or.inr ⟨h1, ?_⟩)
        intro c hc heq
        exact h2 ⟨c, hc, heq⟩
  have hinj : ∀ c ∈ D.classes, ∀ c2 ∈ D.classes, c.isa = c2.isa → c.name = c2.name := by
    intro c hc c2 hc2 heq
    have h1 : lookupClassList c.name D.classes = some c.isa :=
      lookupClassList_of_mem D.classes hnodup c hc
    have hmapinj := List.inj_on_of_nodup_map hcc hc hc2 heq
    rw [hmapinj]
  refine ⟨?_, ?_, ?_, ?_⟩
  · intro className
    constructor
    · intro h
      cases className with
      | none => exact absurd h.symm hBN
      | some text =>
        rcases hcases text with h1 | ⟨c, hc, h2⟩ | ⟨h3, h4⟩
        · rw [h1]
        · rw [h2, hclass c hc] at h
          exact absurd h (hBc c hc)
        · rw [hother text h3 h4] at h
          exact absurd h.symm hBN
    · intro h
      rw [h]
      exact hbase
  · intro c hc className
    constructor
    · intro h
      cases className with
      | none => exact absurd h.symm (hNc c hc)
      | some text =>
        rcases hcases text with h1 | ⟨c2, hc2, h2⟩ | ⟨h3, h4⟩
        · rw [h1, hbase] at h
          exact absurd h.symm (hBc c hc)
        · rw [h2, hclass c2 hc2] at h
          rw [h2, hinj c2 hc2 c hc h]
        · rw [hother text h3 h4] at h
          exact absurd h.symm (hNc c hc)
    · intro h
      rw [h]
      exact hclass c hc
  · intro className
    constructor
    · intro h
      cases className with
      | none => exact Or.inl rfl
      | some text =>
        rcases hcases text with h1 | ⟨c, hc, h2⟩ | ⟨h3, h4⟩
        · rw [h1, hbase] at h
          exact absurd h hBN
        · rw [h2, hclass c hc] at h
          exact absurd h (hNc c hc)
        · exact Or.inr ⟨text, rfl, h3, h4⟩
    · intro h
      rcases h with h | ⟨text, h, h3, h4⟩
      · rw [h]
        rfl
      · rw [h]
        exact hother text h3 h4
  · refine hother "" (by decide) ?_
    intro c hc heq
    exact (hident c hc).2 heq.symm

/-- Witness for C5: the two classes of `sampleDecls`; `Simd` resolves, `simd` does not. -/
theorem lookupHWIntrinsicISA_exact_witness :
    lookupHWIntrinsicISA sampleDecls (some "Simd") = 3 ∧
    lookupHWIntrinsicISA sampleDecls (some "simd") = sampleDecls.InstructionSet_NONE :=
  have h := lookupHWIntrinsicISA_exact sampleDecls (by decide) (by decide)
  ⟨(h.2.1 { name := "Simd", isa := 3 } (by decide) (some "Simd")).mpr rfl,
   (h.2.2.1 (some "simd")).mpr (Or.inr ⟨"simd", rfl, by decide, by decide⟩)⟩

/-- C6: for a class name that resolves to an instruction set below 64, the method name
`get_IsSupported` matches the first row of the table, so the result is
`NI_ARM64_IsSupported_True` when `compSupports` is true and `NI_ARM64_IsSupported_False`
when it is false, and is neither `NI_Illegal` nor `NI_ARM64_PlatformNotSupported`. -/
theorem lookupHWIntrinsic_get_IsSupported (D : Arm64Decls)
    (compSupports : InstructionSet → Bool) (className : Option String)
    (hisa : lookupHWIntrinsicISA D className ≠ D.InstructionSet_NONE)
    (h64 : lookupHWIntrinsicISA D className < 64)
    (hrange : D.NI_HW_INTRINSIC_START < D.NI_HW_INTRINSIC_END)
    (hdist : D.sentinelsDistinct) :
    (compSupports (lookupHWIntrinsicISA D className) = true →
      lookupHWIntrinsic D compSupports className "get_IsSupported" =
        some D.NI_ARM64_IsSupported_True) ∧
    (compSupports (lookupHWIntrinsicISA D className) = false →
      lookupHWIntrinsic D compSupports className "get_IsSupported" =
        some D.NI_ARM64_IsSupported_False) ∧
    lookupHWIntrinsic D compSupports className "get_IsSupported" ≠ some D.NI_Illegal ∧
    lookupHWIntrinsic D compSupports className "get_IsSupported" ≠
      some D.NI_ARM64_PlatformNotSupported := by
  have hd := hdist
  simp only [Arm64Decls.sentinelsDistinct, List.nodup_cons, List.mem_cons, List.mem_singleton,
    not_or, List.not_mem_nil, not_false_eq_true, List.nodup_nil, and_true] at hd
  obtain ⟨⟨hIT, hIF, hIP⟩, ⟨hTF, hTP⟩, hFP⟩ := hd
  obtain ⟨k, hk⟩ : ∃ k, D.NI_HW_INTRINSIC_END - D.NI_HW_INTRINSIC_START = k + 1 :=
    Nat.exists_eq_succ_of_ne_zero (Nat.sub_ne_zero_of_lt hrange)
  have hm : rowMatches (IsaFlag.flag (lookupHWIntrinsicISA D className)) "get_IsSupported"
      { intrinsicID := D.NI_ARM64_IsSupported_True, intrinsicName := "get_IsSupported",
        isaflags := IsaFlag.EveryISA, form := Form.IsSupported } = true := by
    simp [rowMatches, flag_and_EveryISA _ h64]
  have hval : lookupHWIntrinsic D compSupports className "get_IsSupported" =
      some (if compSupports (lookupHWIntrinsicISA D className) then D.NI_ARM64_IsSupported_True
            else D.NI_ARM64_IsSupported_False) := by
    unfold lookupHWIntrinsic
    simp only [hisa, ne_eq, not_false_eq_true, if_true]
    rw [hk, lookupLoop_of_row D compSupports _ _ _
      { intrinsicID := D.NI_ARM64_IsSupported_True, intrinsicName := "get_IsSupported",
        isaflags := IsaFlag.EveryISA, form := Form.IsSupported } k 0 rfl hm]
    cases compSupports (lookupHWIntrinsicISA D className) <;> simp
  refine ⟨?_, ?_, ?_, ?_⟩
  · intro h
    rw [hval, h]
    rfl
  · intro h
    rw [hval, h]
    rfl
  · rw [hval]
    cases compSupports (lookupHWIntrinsicISA D className)
    · simpa using fun h => hIF h.symm
    · simpa using fun h => hIT h.symm
  · rw [hval]
    cases compSupports (lookupHWIntrinsicISA D className)
    · simpa using hFP
    · simpa using hTP

/-- Witness for C6: class `Aes` of `sampleDecls`, with only the base set available. -/
theorem lookupHWIntrinsic_get_IsSupported_witness :
    lookupHWIntrinsic sampleDecls onlyBase (some "Aes") "get_IsSupported" = some 12 :=
  (lookupHWIntrinsic_get_IsSupported sampleDecls onlyBase (some "Aes")
    (by decide) (by decide) (by decide) (by decide)).2.1 (by decide)

/-! ## Lowering: the claims -/

/-- C7: for an id whose descriptor has form `IsSupported`, `impHWIntrinsic` returns the
constant node 1 if the id is `NI_ARM64_IsSupported_True` and the constant node 0 for every
other id of that form, for both values of `mustExpand`, and leaves the operand stack as
it was. -/
theorem impHWIntrinsic_IsSupported (C : Compiler) (intrinsic : NamedIntrinsic)
    (method : CORINFO_METHOD_HANDLE) (sig : CORINFO_SIG_INFO) (mustExpand : Bool)
    (stack : List GenTree) (info : HWIntrinsicInfo)
    (hinfo : getHWIntrinsicInfo C.decls intrinsic = some info)
    (hform : info.form = Form.IsSupported) :
    (intrinsic = C.decls.NI_ARM64_IsSupported_True →
      impHWIntrinsic C intrinsic method sig mustExpand stack =
        Except.ok (some (GenTree.cnsInt 1), stack)) ∧
    (intrinsic ≠ C.decls.NI_ARM64_IsSupported_True →
      impHWIntrinsic C intrinsic method sig mustExpand stack =
        Except.ok (some (GenTree.cnsInt 0), stack)) := by
  have hval : impHWIntrinsic C intrinsic method sig mustExpand stack =
      Except.ok (some (GenTree.cnsInt
        (if intrinsic = C.decls.NI_ARM64_IsSupported_True then 1 else 0)), stack) := by
    unfold impHWIntrinsic
    rw [hinfo]
    simp only [hform, simdClassOf, impHWIntrinsicForm, gtNewIconNode]
  constructor
  · intro h
    rw [hval, if_pos h]
  · intro h
    rw [hval, if_neg h]

/-- Witness for C7: the id `NI_ARM64_IsSupported_False` (12 in `sampleDecls`), lowered
with `mustExpand = false` on a stack holding one operand. -/
theorem impHWIntrinsic_IsSupported_witness :
    impHWIntrinsic sampleCompiler 12 0
        { retType := 1, retTypeClass := none, args := 0, numArgs := 0 } false
        [GenTree.tree 7] =
      Except.ok (some (GenTree.cnsInt 0), [GenTree.tree 7]) :=
  (impHWIntrinsic_IsSupported sampleCompiler 12 0
    { retType := 1, retTypeClass := none, args := 0, numArgs := 0 } false [GenTree.tree 7]
    { intrinsicID := 12, intrinsicName := "::NI_ARM64_IsSupported_False",
      isaflags := IsaFlag.EveryISA, form := Form.IsSupported }
    (by decide) rfl).2 (by decide)

/-- C8: for an id whose descriptor has form `Unsupported`, the result of `impHWIntrinsic`
is what the fault helper returns for `CORINFO_HELP_THROW_PLATFORM_NOT_SUPPORTED`; with
the helper as the spec describes it, that is the platform-not-supported fault node, for
`mustExpand = false` as well as for `mustExpand = true`, and never `nullptr`. -/
theorem impHWIntrinsic_Unsupported (C : Compiler) (intrinsic : NamedIntrinsic)
    (method : CORINFO_METHOD_HANDLE) (sig : CORINFO_SIG_INFO) (stack : List GenTree)
    (info : HWIntrinsicInfo)
    (hinfo : getHWIntrinsicInfo C.decls intrinsic = some info)
    (hform : info.form = Form.Unsupported) :
    ∀ mustExpand : Bool,
      impHWIntrinsic C intrinsic method sig mustExpand stack =
        impUnsupportedHWIntrinsic CorInfoHelpFunc.CORINFO_HELP_THROW_PLATFORM_NOT_SUPPORTED
          method sig mustExpand stack ∧
      impHWIntrinsic C intrinsic method sig mustExpand stack =
        Except.ok (some (GenTree.mustThrow
          CorInfoHelpFunc.CORINFO_HELP_THROW_PLATFORM_NOT_SUPPORTED), stack) ∧
      ∀ s, impHWIntrinsic C intrinsic method sig mustExpand stack ≠ Except.ok (none, s) := by
  intro mustExpand
  have hval : impHWIntrinsic C intrinsic method sig mustExpand stack =
      impUnsupportedHWIntrinsic CorInfoHelpFunc.CORINFO_HELP_THROW_PLATFORM_NOT_SUPPORTED
        method sig mustExpand stack := by
    unfold impHWIntrinsic
    rw [hinfo]
    simp only [hform, simdClassOf, impHWIntrinsicForm]
  refine ⟨hval, ?_, ?_⟩
  · rw [hval]
    rfl
  · intro s h
    rw [hval] at h
    simp [impUnsupportedHWIntrinsic] at h

/-- Witness for C8: the id `NI_ARM64_PlatformNotSupported` (13 in `sampleDecls`), lowered
with `mustExpand = false`. -/
theorem impHWIntrinsic_Unsupported_witness :
    impHWIntrinsic sampleCompiler 13 0
        { retType := 1, retTypeClass := none, args := 0, numArgs := 1 } false
        [GenTree.tree 7] =
      Except.ok (some (GenTree.mustThrow
        CorInfoHelpFunc.CORINFO_HELP_THROW_PLATFORM_NOT_SUPPORTED), [GenTree.tree 7]) :=
  (impHWIntrinsic_Unsupported sampleCompiler 13 0
    { retType := 1, retTypeClass := none, args := 0, numArgs := 1 } [GenTree.tree 7]
    { intrinsicID := 13, intrinsicName := "::NI_ARM64_PlatformNotSupported",
      isaflags := IsaFlag.EveryISA, form := Form.Unsupported }
    (by decide) rfl false).2.1

/-- C9: for an id of form `SimdBinaryOp` whose return type class resolves to a supported
element type, on a stack holding `opA` then `opB` (`opB` on top): the first pop yields
`opB`, the second `opA`; exactly these two operands leave the stack; and the result is the
binary vector node with operands `(opA, opB)`, tagged with the id, the element type and
the vector byte width. -/
theorem impHWIntrinsic_SimdBinaryOp (C : Compiler) (intrinsic : NamedIntrinsic)
    (method : CORINFO_METHOD_HANDLE) (sig : CORINFO_SIG_INFO) (mustExpand : Bool)
    (info : HWIntrinsicInfo) (simdClass : CORINFO_CLASS_HANDLE)
    (opA opB : GenTree) (rest : List GenTree)
    (hinfo : getHWIntrinsicInfo C.decls intrinsic = some info)
    (hform : info.form = Form.SimdBinaryOp)
    (hclass : sig.retTypeClass = some simdClass)
    (hbase : (C.getBaseTypeAndSizeOfSIMDType simdClass).1 ≠ var_types.TYP_UNKNOWN) :
    impSIMDPopStack (C.getSIMDTypeForSize (C.getBaseTypeAndSizeOfSIMDType simdClass).2)
        (opB :: opA :: rest) = Except.ok (opB, opA :: rest) ∧
    impSIMDPopStack (C.getSIMDTypeForSize (C.getBaseTypeAndSizeOfSIMDType simdClass).2)
        (opA :: rest) = Except.ok (opA, rest) ∧
    impHWIntrinsic C intrinsic method sig mustExpand (opB :: opA :: rest) =
      Except.ok
        (some (GenTree.simdHWIntrinsic2
          (C.getSIMDTypeForSize (C.getBaseTypeAndSizeOfSIMDType simdClass).2) opA opB
          intrinsic (C.getBaseTypeAndSizeOfSIMDType simdClass).1
          (C.getBaseTypeAndSizeOfSIMDType simdClass).2), rest) := by
  refine ⟨rfl, rfl, ?_⟩
  unfold impHWIntrinsic
  rw [hinfo]
  simp only [hform, simdClassOf, hclass]
  rw [if_neg hbase]
  rfl

/-- Witness for C9: `Add` (15 in `sampleDecls`) on a 16-byte vector class, `mustExpand`
set, stack `[a, b]` above one further entry. -/
theorem impHWIntrinsic_SimdBinaryOp_witness :
    impHWIntrinsic sampleCompiler 15 0
        { retType := 1, retTypeClass := some 128, args := 128, numArgs := 2 } true
        [GenTree.tree 2, GenTree.tree 1, GenTree.tree 0] =
      Except.ok (some (GenTree.simdHWIntrinsic2 (var_types.typ 116) (GenTree.tree 1)
        (GenTree.tree 2) 15 (var_types.typ 4) 16), [GenTree.tree 0]) :=
  (impHWIntrinsic_SimdBinaryOp sampleCompiler 15 0
    { retType := 1, retTypeClass := some 128, args := 128, numArgs := 2 } true
    { intrinsicID := 15, intrinsicName := "Add", isaflags := 2 ^ 3, form := Form.SimdBinaryOp }
    128 (GenTree.tree 1) (GenTree.tree 2) [GenTree.tree 0]
    (by decide) rfl rfl (by decide)).2.2

/-- The immediate check fails on an operand that is not an integer constant, and on an
integer constant that is not below the lane count. -/
theorem impCheckImmediate_eq_false (C : Compiler) (index : GenTree) (simdSizeBytes : Nat)
    (simdBaseType : var_types)
    (hindex : index.IsCnsIntOrI = false ∨
      ∃ v : Int, index = GenTree.cnsInt v ∧
        ((simdSizeBytes / C.genTypeSize simdBaseType : Nat) : Int) ≤ v) :
    impCheckImmediate index (getSIMDVectorLength C simdSizeBytes simdBaseType) = false := by
  rcases hindex with hnot | ⟨v, hv, hle⟩
  · cases index <;> first | rfl | cases hnot
  · subst hv
    unfold impCheckImmediate getSIMDVectorLength
    have hmod : simdSizeBytes / C.genTypeSize simdBaseType % 2 ^ 32 ≤
        simdSizeBytes / C.genTypeSize simdBaseType := Nat.mod_le _ _
    have hcast : ((simdSizeBytes / C.genTypeSize simdBaseType % 2 ^ 32 : Nat) : Int) ≤
        ((simdSizeBytes / C.genTypeSize simdBaseType : Nat) : Int) := Int.ofNat_le.mpr hmod
    exact decide_eq_false (not_lt.mpr (le_trans hcast hle))

/-- C10: for forms `SimdExtractOp` (stack `index :: rest`, element type resolved from the
first argument) and `SimdInsertOp` (stack `value :: index :: rest`, element type resolved
from the return type class), with a supported element type and `mustExpand = false`:
if the lane-index operand is not an integer constant, or is a constant not strictly below
the lane count `simdSizeBytes / elementSize`, `impHWIntrinsic` returns `nullptr` and
builds no node. -/
theorem impHWIntrinsic_lane_index_rejected (C : Compiler) (intrinsic : NamedIntrinsic)
    (method : CORINFO_METHOD_HANDLE) (sig : CORINFO_SIG_INFO) (info : HWIntrinsicInfo)
    (simdClass : CORINFO_CLASS_HANDLE) (index : GenTree) (stack : List GenTree)
    (hinfo : getHWIntrinsicInfo C.decls intrinsic = some info)
    (hshape :
      (info.form = Form.SimdExtractOp ∧ C.getArgType sig = some simdClass ∧
        ∃ rest, stack = index :: rest) ∨
      (info.form = Form.SimdInsertOp ∧ sig.retTypeClass = some simdClass ∧
        ∃ value rest, stack = value :: index :: rest))
    (hbase : (C.getBaseTypeAndSizeOfSIMDType simdClass).1 ≠ var_types.TYP_UNKNOWN)
    (hindex : index.IsCnsIntOrI = false ∨
      ∃ v : Int, index = GenTree.cnsInt v ∧
        (((C.getBaseTypeAndSizeOfSIMDType simdClass).2 /
          C.genTypeSize (C.getBaseTypeAndSizeOfSIMDType simdClass).1 : Nat) : Int) ≤ v) :
    impHWIntrinsic C intrinsic method sig false stack = Except.ok (none, stack) := by
  have hcheck := impCheckImmediate_eq_false C index _ _ hindex
  unfold impHWIntrinsic
  rw [hinfo]
  rcases hshape with ⟨hform, hclass, rest, hstack⟩ | ⟨hform, hclass, value, rest, hstack⟩
  · subst hstack
    simp only [hform, simdClassOf, hclass]
    rw [if_neg hbase]
    simp [impHWIntrinsicForm, immediateRejected, impStackTop, hcheck, bind, Except.bind, pure,
      Except.pure]
  · subst hstack
    simp only [hform, simdClassOf, hclass]
    rw [if_neg hbase]
    simp [impHWIntrinsicForm, immediateRejected, impStackTop, hcheck, bind, Except.bind, pure,
      Except.pure]

/-- Witness for C10: `Extract` (17 in `sampleDecls`) on a four-lane vector with the
constant index 4, and `Insert` (18) on a four-lane vector with an index that is not a
constant. -/
theorem impHWIntrinsic_lane_index_rejected_witness :
    impHWIntrinsic sampleCompiler 17 0
        { retType := 1, retTypeClass := none, args := 128, numArgs := 2 } false
        [GenTree.cnsInt 4, GenTree.tree 0] =
      Except.ok (none, [GenTree.cnsInt 4, GenTree.tree 0]) ∧
    impHWIntrinsic sampleCompiler 18 0
        { retType := 1, retTypeClass := some 128, args := 128, numArgs := 3 } false
        [GenTree.tree 2, GenTree.tree 1, GenTree.tree 0] =
      Except.ok (none, [GenTree.tree 2, GenTree.tree 1, GenTree.tree 0]) :=
  ⟨impHWIntrinsic_lane_index_rejected sampleCompiler 17 0
      { retType := 1, retTypeClass := none, args := 128, numArgs := 2 }
      { intrinsicID := 17, intrinsicName := "Extract", isaflags := 2 ^ 3,
        form := Form.SimdExtractOp }
      128 (GenTree.cnsInt 4) [GenTree.cnsInt 4, GenTree.tree 0]
      (by decide) (Or.inl ⟨rfl, rfl, [GenTree.tree 0], rfl⟩) (by decide)
      (Or.inr ⟨4, rfl, by decide⟩),
   impHWIntrinsic_lane_index_rejected sampleCompiler 18 0
      { retType := 1, retTypeClass := some 128, args := 128, numArgs := 3 }
      { intrinsicID := 18, intrinsicName := "Insert", isaflags := 2 ^ 3,
        form := Form.SimdInsertOp }
      128 (GenTree.tree 1) [GenTree.tree 2, GenTree.tree 1, GenTree.tree 0]
      (by decide) (Or.inr ⟨rfl, rfl, GenTree.tree 2, [GenTree.tree 0], rfl⟩) (by decide)
      (Or.inl rfl)⟩

/-! ## Lowering: the lane-indexed forms -/

/-- The case `SimdExtractOp` on a stack `index :: vector :: rest`, with the element type
resolved from the first argument: `nullptr` if `mustExpand` is off and the check on
`index` fails, the scalar node `(vector, index)` otherwise. -/
theorem impHWIntrinsic_SimdExtractOp_eval (C : Compiler) (intrinsic : NamedIntrinsic)
    (method : CORINFO_METHOD_HANDLE) (sig : CORINFO_SIG_INFO) (mustExpand : Bool)
    (info : HWIntrinsicInfo) (simdClass : CORINFO_CLASS_HANDLE)
    (index vector : GenTree) (rest : List GenTree)
    (hinfo : getHWIntrinsicInfo C.decls intrinsic = some info)
    (hform : info.form = Form.SimdExtractOp)
    (hclass : C.getArgType sig = some simdClass)
    (hbase : (C.getBaseTypeAndSizeOfSIMDType simdClass).1 ≠ var_types.TYP_UNKNOWN) :
    impHWIntrinsic C intrinsic method sig mustExpand (index :: vector :: rest) =
      if mustExpand = false ∧
          impCheckImmediate index
            (getSIMDVectorLength C (C.getBaseTypeAndSizeOfSIMDType simdClass).2
              (C.getBaseTypeAndSizeOfSIMDType simdClass).1) = false
      then Except.ok (none, index :: vector :: rest)
      else Except.ok
        (some (GenTree.scalarHWIntrinsic2 (C.JITtype2varType sig.retType) vector index
          intrinsic), rest) := by
  unfold impHWIntrinsic
  rw [hinfo]
  simp only [hform, simdClassOf, hclass]
  rw [if_neg hbase]
  cases mustExpand <;>
    cases hc : impCheckImmediate index
      (getSIMDVectorLength C (C.getBaseTypeAndSizeOfSIMDType simdClass).2
        (C.getBaseTypeAndSizeOfSIMDType simdClass).1) <;>
    simp [impHWIntrinsicForm, immediateRejected, impStackTop, hc, bind, Except.bind, pure,
      Except.pure, impPopStack, impSIMDPopStack]

/-- The case `SimdInsertOp` on a stack `value :: index :: vector :: rest`, with the element
type resolved from the return type class: `nullptr` if `mustExpand` is off and the check on
`index` fails, the vector node `(vector, index, value)` otherwise. -/
theorem impHWIntrinsic_SimdInsertOp_eval (C : Compiler) (intrinsic : NamedIntrinsic)
    (method : CORINFO_METHOD_HANDLE) (sig : CORINFO_SIG_INFO) (mustExpand : Bool)
    (info : HWIntrinsicInfo) (simdClass : CORINFO_CLASS_HANDLE)
    (value index vector : GenTree) (rest : List GenTree)
    (hinfo : getHWIntrinsicInfo C.decls intrinsic = some info)
    (hform : info.form = Form.SimdInsertOp)
    (hclass : sig.retTypeClass = some simdClass)
    (hbase : (C.getBaseTypeAndSizeOfSIMDType simdClass).1 ≠ var_types.TYP_UNKNOWN) :
    impHWIntrinsic C intrinsic method sig mustExpand (value :: index :: vector :: rest) =
      if mustExpand = false ∧
          impCheckImmediate index
            (getSIMDVectorLength C (C.getBaseTypeAndSizeOfSIMDType simdClass).2
              (C.getBaseTypeAndSizeOfSIMDType simdClass).1) = false
      then Except.ok (none, value :: index :: vector :: rest)
      else Except.ok
        (some (GenTree.simdHWIntrinsic3
          (C.getSIMDTypeForSize (C.getBaseTypeAndSizeOfSIMDType simdClass).2)
          vector index value intrinsic (C.getBaseTypeAndSizeOfSIMDType simdClass).1
          (C.getBaseTypeAndSizeOfSIMDType simdClass).2), rest) := by
  unfold impHWIntrinsic
  rw [hinfo]
  simp only [hform, simdClassOf, hclass]
  rw [if_neg hbase]
  cases mustExpand <;>
    cases hc : impCheckImmediate index
      (getSIMDVectorLength C (C.getBaseTypeAndSizeOfSIMDType simdClass).2
        (C.getBaseTypeAndSizeOfSIMDType simdClass).1) <;>
    simp [impHWIntrinsicForm, immediateRejected, impStackTop, hc, bind, Except.bind, pure,
      Except.pure, impPopStack, impSIMDPopStack]

/-- Counterexample for C11: `Extract` (17 in `sampleDecls`) on a four-lane vector, stack
`[vec, 4]` with the constant 4 on top, `mustExpand` set. The lane count is 4, the check
would fail on the constant, and the result is the ordinary lane-extract node whose index
operand is that constant. -/
theorem impHWIntrinsic_mustExpand_out_of_range_counterexample :
    getSIMDVectorLength sampleCompiler 16 (var_types.typ 4) = 4 ∧
    impCheckImmediate (GenTree.cnsInt 4) 4 = false ∧
    impHWIntrinsic sampleCompiler 17 0
        { retType := 1, retTypeClass := none, args := 128, numArgs := 2 } true
        [GenTree.cnsInt 4, GenTree.tree 0] =
      Except.ok (some (GenTree.scalarHWIntrinsic2 (var_types.typ 1) (GenTree.tree 0)
        (GenTree.cnsInt 4) 17), []) :=
  ⟨by decide, by decide, rfl⟩

/-- C11 (amended): for form `SimdExtractOp` with a supported element type and
`mustExpand = true`, the immediate check is not made: whatever the index operand is, also
a constant at or above the lane count, `impHWIntrinsic` pops the index and the vector and
returns the ordinary lane-extract node `(vector, index)` with the call's scalar return
type. -/
theorem impHWIntrinsic_SimdExtractOp_mustExpand (C : Compiler) (intrinsic : NamedIntrinsic)
    (method : CORINFO_METHOD_HANDLE) (sig : CORINFO_SIG_INFO)
    (info : HWIntrinsicInfo) (simdClass : CORINFO_CLASS_HANDLE)
    (index vector : GenTree) (rest : List GenTree)
    (hinfo : getHWIntrinsicInfo C.decls intrinsic = some info)
    (hform : info.form = Form.SimdExtractOp)
    (hclass : C.getArgType sig = some simdClass)
    (hbase : (C.getBaseTypeAndSizeOfSIMDType simdClass).1 ≠ var_types.TYP_UNKNOWN) :
    impHWIntrinsic C intrinsic method sig true (index :: vector :: rest) =
      Except.ok
        (some (GenTree.scalarHWIntrinsic2 (C.JITtype2varType sig.retType) vector index
          intrinsic), rest) := by
  rw [impHWIntrinsic_SimdExtractOp_eval C intrinsic method sig true info simdClass index vector
    rest hinfo hform hclass hbase]
  simp

/-- Witness for C11 (amended): `Extract` on a four-lane vector with the constant index 9
and `mustExpand` set. -/
theorem impHWIntrinsic_SimdExtractOp_mustExpand_witness :
    impHWIntrinsic sampleCompiler 17 0
        { retType := 1, retTypeClass := none, args := 128, numArgs := 2 } true
        [GenTree.cnsInt 9, GenTree.tree 0, GenTree.tree 5] =
      Except.ok (some (GenTree.scalarHWIntrinsic2 (var_types.typ 1) (GenTree.tree 0)
        (GenTree.cnsInt 9) 17), [GenTree.tree 5]) :=
  impHWIntrinsic_SimdExtractOp_mustExpand sampleCompiler 17 0
    { retType := 1, retTypeClass := none, args := 128, numArgs := 2 }
    { intrinsicID := 17, intrinsicName := "Extract", isaflags := 2 ^ 3,
      form := Form.SimdExtractOp }
    128 (GenTree.cnsInt 9) (GenTree.tree 0) [GenTree.tree 5]
    (by decide) rfl rfl (by decide)

/-- C12: for an id whose form takes a generic vector element type (from the return type
class for `SimdUnaryOp`, `SimdBinaryOp`, `SimdSelectOp`, `SimdSetAllOp`, `SimdInsertOp`;
from the first argument for `SimdExtractOp`), if the element type of the vector class is
`TYP_UNKNOWN`, the result of `impHWIntrinsic` is what the fault helper returns for
`CORINFO_HELP_THROW_TYPE_NOT_SUPPORTED` on the stack as it was on entry: the
type-not-supported fault node, no operation node, and no operand popped by
`impHWIntrinsic`. -/
theorem impHWIntrinsic_type_not_supported (C : Compiler) (intrinsic : NamedIntrinsic)
    (method : CORINFO_METHOD_HANDLE) (sig : CORINFO_SIG_INFO) (mustExpand : Bool)
    (stack : List GenTree) (info : HWIntrinsicInfo) (simdClass : CORINFO_CLASS_HANDLE)
    (hinfo : getHWIntrinsicInfo C.decls intrinsic = some info)
    (hclass :
      ((info.form = Form.SimdUnaryOp ∨ info.form = Form.SimdBinaryOp ∨
          info.form = Form.SimdSelectOp ∨ info.form = Form.SimdSetAllOp ∨
          info.form = Form.SimdInsertOp) ∧ sig.retTypeClass = some simdClass) ∨
      (info.form = Form.SimdExtractOp ∧ C.getArgType sig = some simdClass))
    (hbase : (C.getBaseTypeAndSizeOfSIMDType simdClass).1 = var_types.TYP_UNKNOWN) :
    impHWIntrinsic C intrinsic method sig mustExpand stack =
      impUnsupportedHWIntrinsic CorInfoHelpFunc.CORINFO_HELP_THROW_TYPE_NOT_SUPPORTED
        method sig mustExpand stack ∧
    impHWIntrinsic C intrinsic method sig mustExpand stack =
      Except.ok (some (GenTree.mustThrow
        CorInfoHelpFunc.CORINFO_HELP_THROW_TYPE_NOT_SUPPORTED), stack) := by
  have hsimd : simdClassOf C sig info.form = some simdClass := by
    rcases hclass with ⟨hform, hret⟩ | ⟨hform, harg⟩
    · rcases hform with h | h | h | h | h <;> rw [h] <;> exact hret
    · rw [hform]
      exact harg
  have hval : impHWIntrinsic C intrinsic method sig mustExpand stack =
      impUnsupportedHWIntrinsic CorInfoHelpFunc.CORINFO_HELP_THROW_TYPE_NOT_SUPPORTED
        method sig mustExpand stack := by
    unfold impHWIntrinsic
    rw [hinfo]
    simp only [hsimd]
    rw [if_pos hbase]
  exact ⟨hval, hval.trans rfl⟩

/-- Witness for C12: `Add` (15 in `sampleDecls`) whose return type class 5 is not a
supported vector type, on a stack of two operands. -/
theorem impHWIntrinsic_type_not_supported_witness :
    impHWIntrinsic sampleCompiler 15 0
        { retType := 1, retTypeClass := some 5, args := 5, numArgs := 2 } true
        [GenTree.tree 2, GenTree.tree 1] =
      Except.ok (some (GenTree.mustThrow
        CorInfoHelpFunc.CORINFO_HELP_THROW_TYPE_NOT_SUPPORTED),
        [GenTree.tree 2, GenTree.tree 1]) :=
  (impHWIntrinsic_type_not_supported sampleCompiler 15 0
    { retType := 1, retTypeClass := some 5, args := 5, numArgs := 2 } true
    [GenTree.tree 2, GenTree.tree 1]
    { intrinsicID := 15, intrinsicName := "Add", isaflags := 2 ^ 3, form := Form.SimdBinaryOp }
    5 (by decide) (Or.inl ⟨Or.inr (Or.inl rfl), rfl⟩) (by decide)).2

/-- The immediate check passes exactly on an integer constant whose signed value is below
the bound. -/
theorem impCheckImmediate_eq_true_iff (immediateOp : GenTree) (max : Nat) :
    impCheckImmediate immediateOp max = true ↔
      ∃ v : Int, immediateOp = GenTree.cnsInt v ∧ v < ((max % 2 ^ 32 : Nat) : Int) := by
  cases immediateOp <;> simp [impCheckImmediate]

/-- C13, at the failing input: on a four-lane vector the constant `-1` passes
`impCheckImmediate` (the comparison with `max` is signed), so with `mustExpand = false`
both `Extract` (17) and `Insert` (18) return a node whose lane-index operand is `-1`
instead of `nullptr`. -/
theorem impHWIntrinsic_negative_lane_index_accepted :
    getSIMDVectorLength sampleCompiler 16 (var_types.typ 4) = 4 ∧
    impCheckImmediate (GenTree.cnsInt (-1)) 4 = true ∧
    impHWIntrinsic sampleCompiler 17 0
        { retType := 1, retTypeClass := none, args := 128, numArgs := 2 } false
        [GenTree.cnsInt (-1), GenTree.tree 0] =
      Except.ok (some (GenTree.scalarHWIntrinsic2 (var_types.typ 1) (GenTree.tree 0)
        (GenTree.cnsInt (-1)) 17), []) ∧
    impHWIntrinsic sampleCompiler 18 0
        { retType := 1, retTypeClass := some 128, args := 128, numArgs := 3 } false
        [GenTree.tree 2, GenTree.cnsInt (-1), GenTree.tree 0] =
      Except.ok (some (GenTree.simdHWIntrinsic3 (var_types.typ 116) (GenTree.tree 0)
        (GenTree.cnsInt (-1)) (GenTree.tree 2) 18 (var_types.typ 4) 16), []) :=
  ⟨by decide, by decide, rfl, rfl⟩

/-- C15: for form `SimdInsertOp` with a supported element type, on a stack holding the
vector, the index and the replacement value pushed in that order, when `mustExpand` is set
or the immediate check passes on the index: the value is popped first, then the index,
then the vector; exactly these three leave the stack; and the result is the three-operand
node `(vector, index, value)` whose type is the vector type. -/
theorem impHWIntrinsic_SimdInsertOp (C : Compiler) (intrinsic : NamedIntrinsic)
    (method : CORINFO_METHOD_HANDLE) (sig : CORINFO_SIG_INFO) (mustExpand : Bool)
    (info : HWIntrinsicInfo) (simdClass : CORINFO_CLASS_HANDLE)
    (value index vector : GenTree) (rest : List GenTree)
    (hinfo : getHWIntrinsicInfo C.decls intrinsic = some info)
    (hform : info.form = Form.SimdInsertOp)
    (hclass : sig.retTypeClass = some simdClass)
    (hbase : (C.getBaseTypeAndSizeOfSIMDType simdClass).1 ≠ var_types.TYP_UNKNOWN)
    (hcheck : mustExpand = true ∨
      impCheckImmediate index
        (getSIMDVectorLength C (C.getBaseTypeAndSizeOfSIMDType simdClass).2
          (C.getBaseTypeAndSizeOfSIMDType simdClass).1) = true) :
    impPopStack (value :: index :: vector :: rest) =
      Except.ok (value, index :: vector :: rest) ∧
    impPopStack (index :: vector :: rest) = Except.ok (index, vector :: rest) ∧
    impSIMDPopStack (C.getSIMDTypeForSize (C.getBaseTypeAndSizeOfSIMDType simdClass).2)
        (vector :: rest) = Except.ok (vector, rest) ∧
    impHWIntrinsic C intrinsic method sig mustExpand (value :: index :: vector :: rest) =
      Except.ok
        (some (GenTree.simdHWIntrinsic3
          (C.getSIMDTypeForSize (C.getBaseTypeAndSizeOfSIMDType simdClass).2)
          vector index value intrinsic (C.getBaseTypeAndSizeOfSIMDType simdClass).1
          (C.getBaseTypeAndSizeOfSIMDType simdClass).2), rest) := by
  refine ⟨rfl, rfl, rfl, ?_⟩
  rw [impHWIntrinsic_SimdInsertOp_eval C intrinsic method sig mustExpand info simdClass value
    index vector rest hinfo hform hclass hbase]
  rcases hcheck with h | h
  · simp [h]
  · simp [h]

/-- Witness for C15: `Insert` (18 in `sampleDecls`) on a four-lane vector with the
constant index 3 and `mustExpand` off. -/
theorem impHWIntrinsic_SimdInsertOp_witness :
    impHWIntrinsic sampleCompiler 18 0
        { retType := 1, retTypeClass := some 128, args := 128, numArgs := 3 } false
        [GenTree.tree 2, GenTree.cnsInt 3, GenTree.tree 0, GenTree.tree 5] =
      Except.ok (some (GenTree.simdHWIntrinsic3 (var_types.typ 116) (GenTree.tree 0)
        (GenTree.cnsInt 3) (GenTree.tree 2) 18 (var_types.typ 4) 16), [GenTree.tree 5]) :=
  (impHWIntrinsic_SimdInsertOp sampleCompiler 18 0
    { retType := 1, retTypeClass := some 128, args := 128, numArgs := 3 } false
    { intrinsicID := 18, intrinsicName := "Insert", isaflags := 2 ^ 3,
      form := Form.SimdInsertOp }
    128 (GenTree.tree 2) (GenTree.cnsInt 3) (GenTree.tree 0) [GenTree.tree 5]
    (by decide) rfl rfl (by decide) (Or.inr (by decide))).2.2.2

/-- C16: in both lane-indexed forms the slot the immediate check reads is the lane-index
argument, the operand that becomes `op2` of the node. For `SimdExtractOp` on a stack
`index :: vector :: rest` the slot read is `impStackTop(0)`, which is `index`, and the
node is `(vector, index)` with the call's scalar return type; for `SimdInsertOp` on a stack
`value :: index :: vector :: rest` the slot read is `impStackTop(1)`, which is `index`,
and the node is `(vector, index, value)`. -/
theorem impHWIntrinsic_checked_slot_is_index (C : Compiler) (intrinsic : NamedIntrinsic)
    (method : CORINFO_METHOD_HANDLE) (sig : CORINFO_SIG_INFO) (mustExpand : Bool)
    (info : HWIntrinsicInfo) (simdClass : CORINFO_CLASS_HANDLE) (index vector : GenTree)
    (hinfo : getHWIntrinsicInfo C.decls intrinsic = some info)
    (hbase : (C.getBaseTypeAndSizeOfSIMDType simdClass).1 ≠ var_types.TYP_UNKNOWN) :
    (info.form = Form.SimdExtractOp → C.getArgType sig = some simdClass →
      ∀ rest : List GenTree,
        impStackTop 0 (index :: vector :: rest) = Except.ok index ∧
        immediateRejected C mustExpand 0 (C.getBaseTypeAndSizeOfSIMDType simdClass).2
            (C.getBaseTypeAndSizeOfSIMDType simdClass).1 (index :: vector :: rest) =
          Except.ok (!mustExpand && !impCheckImmediate index
            (getSIMDVectorLength C (C.getBaseTypeAndSizeOfSIMDType simdClass).2
              (C.getBaseTypeAndSizeOfSIMDType simdClass).1)) ∧
        impHWIntrinsic C intrinsic method sig mustExpand (index :: vector :: rest) =
          if mustExpand = false ∧
              impCheckImmediate index
                (getSIMDVectorLength C (C.getBaseTypeAndSizeOfSIMDType simdClass).2
                  (C.getBaseTypeAndSizeOfSIMDType simdClass).1) = false
          then Except.ok (none, index :: vector :: rest)
          else Except.ok
            (some (GenTree.scalarHWIntrinsic2 (C.JITtype2varType sig.retType) vector index
              intrinsic), rest)) ∧
    (info.form = Form.SimdInsertOp → sig.retTypeClass = some simdClass →
      ∀ (value : GenTree) (rest : List GenTree),
        impStackTop 1 (value :: index :: vector :: rest) = Except.ok index ∧
        immediateRejected C mustExpand 1 (C.getBaseTypeAndSizeOfSIMDType simdClass).2
            (C.getBaseTypeAndSizeOfSIMDType simdClass).1 (value :: index :: vector :: rest) =
          Except.ok (!mustExpand && !impCheckImmediate index
            (getSIMDVectorLength C (C.getBaseTypeAndSizeOfSIMDType simdClass).2
              (C.getBaseTypeAndSizeOfSIMDType simdClass).1)) ∧
        impHWIntrinsic C intrinsic method sig mustExpand
            (value :: index :: vector :: rest) =
          if mustExpand = false ∧
              impCheckImmediate index
                (getSIMDVectorLength C (C.getBaseTypeAndSizeOfSIMDType simdClass).2
                  (C.getBaseTypeAndSizeOfSIMDType simdClass).1) = false
          then Except.ok (none, value :: index :: vector :: rest)
          else Except.ok
            (some (GenTree.simdHWIntrinsic3
              (C.getSIMDTypeForSize (C.getBaseTypeAndSizeOfSIMDType simdClass).2)
              vector index value intrinsic (C.getBaseTypeAndSizeOfSIMDType simdClass).1
              (C.getBaseTypeAndSizeOfSIMDType simdClass).2), rest)) := by
  constructor
  · intro hform hclass rest
    refine ⟨rfl, ?_, impHWIntrinsic_SimdExtractOp_eval C intrinsic method sig mustExpand info
      simdClass index vector rest hinfo hform hclass hbase⟩
    cases mustExpand <;> simp [immediateRejected, impStackTop]
  · intro hform hclass value rest
    refine ⟨rfl, ?_, impHWIntrinsic_SimdInsertOp_eval C intrinsic method sig mustExpand info
      simdClass value index vector rest hinfo hform hclass hbase⟩
    cases mustExpand <;> simp [immediateRejected, impStackTop]

/-- Witness for C16: `Extract` (17 in `sampleDecls`) with the constant index 2 and `Insert`
(18) with the constant index 5, both on a four-lane vector with `mustExpand` off: the
first gives the node `(vector, 2)`, the second is not expanded. -/
theorem impHWIntrinsic_checked_slot_is_index_witness :
    impHWIntrinsic sampleCompiler 17 0
        { retType := 1, retTypeClass := none, args := 128, numArgs := 2 } false
        [GenTree.cnsInt 2, GenTree.tree 0] =
      Except.ok (some (GenTree.scalarHWIntrinsic2 (var_types.typ 1) (GenTree.tree 0)
        (GenTree.cnsInt 2) 17), []) ∧
    impHWIntrinsic sampleCompiler 18 0
        { retType := 1, retTypeClass := some 128, args := 128, numArgs := 3 } false
        [GenTree.tree 2, GenTree.cnsInt 5, GenTree.tree 0] =
      Except.ok (none, [GenTree.tree 2, GenTree.cnsInt 5, GenTree.tree 0]) :=
  ⟨((impHWIntrinsic_checked_slot_is_index sampleCompiler 17 0
      { retType := 1, retTypeClass := none, args := 128, numArgs := 2 } false
      { intrinsicID := 17, intrinsicName := "Extract", isaflags := 2 ^ 3,
        form := Form.SimdExtractOp }
      128 (GenTree.cnsInt 2) (GenTree.tree 0) (by decide) (by decide)).1 rfl rfl
        []).2.2.trans rfl,
   ((impHWIntrinsic_checked_slot_is_index sampleCompiler 18 0
      { retType := 1, retTypeClass := some 128, args := 128, numArgs := 3 } false
      { intrinsicID := 18, intrinsicName := "Insert", isaflags := 2 ^ 3,
        form := Form.SimdInsertOp }
      128 (GenTree.cnsInt 5) (GenTree.tree 0) (by decide) (by decide)).2 rfl rfl
        (GenTree.tree 2) []).2.2.trans rfl⟩

/-- The second `switch` on `SimdExtractOp`: a `nullptr` result leaves the stack as it was
and arises only with `mustExpand` off. -/
theorem impHWIntrinsicForm_SimdExtractOp_deferred (C : Compiler) (intrinsic : NamedIntrinsic)
    (method : CORINFO_METHOD_HANDLE) (sig : CORINFO_SIG_INFO) (mustExpand : Bool)
    (simdType simdBaseType : var_types) (simdSizeBytes : Nat) (stack stack' : List GenTree)
    (h : impHWIntrinsicForm C intrinsic method sig mustExpand simdType simdBaseType
      simdSizeBytes stack Form.SimdExtractOp = Except.ok (none, stack')) :
    stack' = stack ∧ mustExpand = false := by
  unfold impHWIntrinsicForm at h
  cases mustExpand with
  | true =>
    rcases stack with _ | ⟨a, _ | ⟨b, rest⟩⟩ <;>
      simp [immediateRejected, bind, Except.bind, pure, Except.pure, impPopStack,
        impSIMDPopStack] at h
  | false =>
    rcases stack with _ | ⟨a, _ | ⟨b, rest⟩⟩ <;>
      simp [immediateRejected, impStackTop, bind, Except.bind, pure, Except.pure, impPopStack,
        impSIMDPopStack] at h <;>
      (split at h <;> simp_all)

/-- The second `switch` on `SimdInsertOp`: a `nullptr` result leaves the stack as it was
and arises only with `mustExpand` off. -/
theorem impHWIntrinsicForm_SimdInsertOp_deferred (C : Compiler) (intrinsic : NamedIntrinsic)
    (method : CORINFO_METHOD_HANDLE) (sig : CORINFO_SIG_INFO) (mustExpand : Bool)
    (simdType simdBaseType : var_types) (simdSizeBytes : Nat) (stack stack' : List GenTree)
    (h : impHWIntrinsicForm C intrinsic method sig mustExpand simdType simdBaseType
      simdSizeBytes stack Form.SimdInsertOp = Except.ok (none, stack')) :
    stack' = stack ∧ mustExpand = false := by
  unfold impHWIntrinsicForm at h
  cases mustExpand with
  | true =>
    rcases stack with _ | ⟨a, _ | ⟨b, _ | ⟨c, rest⟩⟩⟩ <;>
      simp [immediateRejected, bind, Except.bind, pure, Except.pure, impPopStack,
        impSIMDPopStack] at h
  | false =>
    rcases stack with _ | ⟨a, _ | ⟨b, _ | ⟨c, rest⟩⟩⟩ <;>
      simp [immediateRejected, impStackTop, bind, Except.bind, pure, Except.pure, impPopStack,
        impSIMDPopStack] at h <;>
      (split at h <;> simp_all)

/-- C19: when `impHWIntrinsic` returns `nullptr` for a lane-extract or lane-insert call,
the operand stack it leaves is the stack on entry, and `mustExpand` was off: the index was
read with `impStackTop`, which does not pop, and the return precedes every pop. -/
theorem impHWIntrinsic_deferred_stack_unchanged (C : Compiler) (intrinsic : NamedIntrinsic)
    (method : CORINFO_METHOD_HANDLE) (sig : CORINFO_SIG_INFO) (mustExpand : Bool)
    (stack stack' : List GenTree) (info : HWIntrinsicInfo)
    (hinfo : getHWIntrinsicInfo C.decls intrinsic = some info)
    (hform : info.form = Form.SimdExtractOp ∨ info.form = Form.SimdInsertOp)
    (hdeferred : impHWIntrinsic C intrinsic method sig mustExpand stack =
      Except.ok (none, stack')) :
    stack' = stack ∧ mustExpand = false := by
  unfold impHWIntrinsic at hdeferred
  rw [hinfo] at hdeferred
  cases hs : simdClassOf C sig info.form with
  | none =>
    simp only [hs] at hdeferred
    rcases hform with h | h
    · rw [h] at hdeferred
      exact impHWIntrinsicForm_SimdExtractOp_deferred C intrinsic method sig mustExpand _ _ _
        stack stack' hdeferred
    · rw [h] at hdeferred
      exact impHWIntrinsicForm_SimdInsertOp_deferred C intrinsic method sig mustExpand _ _ _
        stack stack' hdeferred
  | some simdClass =>
    simp only [hs] at hdeferred
    by_cases hb : (C.getBaseTypeAndSizeOfSIMDType simdClass).1 = var_types.TYP_UNKNOWN
    · simp [hb, impUnsupportedHWIntrinsic] at hdeferred
    · simp only [hb, if_false] at hdeferred
      rcases hform with h | h
      · rw [h] at hdeferred
        exact impHWIntrinsicForm_SimdExtractOp_deferred C intrinsic method sig mustExpand _ _ _
          stack stack' hdeferred
      · rw [h] at hdeferred
        exact impHWIntrinsicForm_SimdInsertOp_deferred C intrinsic method sig mustExpand _ _ _
          stack stack' hdeferred

/-- Witness for C19: `Extract` (17 in `sampleDecls`) on a four-lane vector with an index
that is not a constant and `mustExpand` off is not expanded; the stack is kept. -/
theorem impHWIntrinsic_deferred_stack_unchanged_witness :
    impHWIntrinsic sampleCompiler 17 0
        { retType := 1, retTypeClass := none, args := 128, numArgs := 2 } false
        [GenTree.tree 1, GenTree.tree 0] =
      Except.ok (none, [GenTree.tree 1, GenTree.tree 0]) ∧
    ([GenTree.tree 1, GenTree.tree 0] = [GenTree.tree 1, GenTree.tree 0] ∧ false = false) :=
  ⟨rfl, impHWIntrinsic_deferred_stack_unchanged sampleCompiler 17 0
    { retType := 1, retTypeClass := none, args := 128, numArgs := 2 } false
    [GenTree.tree 1, GenTree.tree 0] [GenTree.tree 1, GenTree.tree 0]
    { intrinsicID := 17, intrinsicName := "Extract", isaflags := 2 ^ 3,
      form := Form.SimdExtractOp }
    (by decide) (Or.inl rfl) rfl⟩

/-! ## Name resolution: isolation of namespaces -/

/-- The flag of an instruction set below 64 is the power of two of its value. -/
theorem flag_eq_two_pow (isa : InstructionSet) (h : isa < 64) : IsaFlag.flag isa = 2 ^ isa := by
  unfold IsaFlag.flag
  rw [Nat.one_shiftLeft, Nat.mod_eq_of_lt (Nat.pow_lt_pow_right (by decide) h)]

/-- Two single-set flags intersect exactly when they are the flag of the same set. -/
theorem flag_and_flag (a b : InstructionSet) (ha : a < 64) (hb : b < 64) :
    IsaFlag.flag a &&& IsaFlag.flag b ≠ 0 ↔ a = b := by
  rw [flag_eq_two_pow a ha, flag_eq_two_pow b hb, Nat.and_two_pow, Nat.testBit_two_pow]
  by_cases h : a = b
  · simp [h]
  · simp [h]

/-- C18: for instruction sets `a` and `b` below 64, `flag(a)` intersects `flag(b)` iff
`a = b`. Hence a row whose `isaflags` is the single flag of `a` fails the test of the scan
for a class that resolves to another set `b`, whatever the method name, and the scan steps
over it; and the row the scan stops at for `b` has `b`'s bit among its flags and is not a
row of the single flag of another set. -/
theorem lookupHWIntrinsic_namespace_isolation (a b : InstructionSet) (ha : a < 64)
    (hb : b < 64) :
    (IsaFlag.flag a &&& IsaFlag.flag b ≠ 0 ↔ a = b) ∧
    (∀ (methodName : String) (d : HWIntrinsicInfo), d.isaflags = IsaFlag.flag a → a ≠ b →
      rowMatches (IsaFlag.flag b) methodName d = false) ∧
    (∀ (D : Arm64Decls) (compSupports : InstructionSet → Bool) (methodName : String)
        (n i : Nat) (d : HWIntrinsicInfo),
      (hwIntrinsicInfoArray D)[i]? = some d → d.isaflags = IsaFlag.flag a → a ≠ b →
      lookupLoop D compSupports b (IsaFlag.flag b) methodName (n + 1) i =
        lookupLoop D compSupports b (IsaFlag.flag b) methodName n (i + 1)) ∧
    (∀ (D : Arm64Decls) (compSupports : InstructionSet → Bool) (className : Option String)
        (methodName : String) (info : HWIntrinsicInfo),
      lookupHWIntrinsicISA D className = b → b ≠ D.InstructionSet_NONE →
      (hwIntrinsicInfoArray D).length ≤ D.NI_HW_INTRINSIC_END - D.NI_HW_INTRINSIC_START →
      (hwIntrinsicInfoArray D).find? (rowMatches (IsaFlag.flag b) methodName) = some info →
      lookupHWIntrinsic D compSupports className methodName =
          some (if compSupports b then info.intrinsicID
                else if info.intrinsicID ≠ D.NI_ARM64_IsSupported_True
                  then D.NI_ARM64_PlatformNotSupported
                  else D.NI_ARM64_IsSupported_False) ∧
        IsaFlag.flag b &&& info.isaflags ≠ 0 ∧
        (a ≠ b → info.isaflags ≠ IsaFlag.flag a)) := by
  have hskip : ∀ (methodName : String) (d : HWIntrinsicInfo),
      d.isaflags = IsaFlag.flag a → a ≠ b →
      rowMatches (IsaFlag.flag b) methodName d = false := by
    intro methodName d hd hab
    have hzero : IsaFlag.flag b &&& d.isaflags = 0 := by
      by_contra hne
      rw [hd] at hne
      exact hab ((flag_and_flag b a hb ha).mp hne).symm
    simp [rowMatches, hzero]
  refine ⟨flag_and_flag a b ha hb, hskip, ?_, ?_⟩
  · intro D compSupports methodName n i d hrow hd hab
    have hm := hskip methodName d hd hab
    conv_lhs => unfold lookupLoop
    rw [hrow]
    show (if rowMatches (IsaFlag.flag b) methodName d = true then _ else _) = _
    rw [if_neg (fun h => Bool.false_ne_true (hm.symm.trans h))]
  · intro D compSupports className methodName info hisa hnone hrows hfind
    have hm : rowMatches (IsaFlag.flag b) methodName info = true := List.find?_some hfind
    have hbit : IsaFlag.flag b &&& info.isaflags ≠ 0 := by
      unfold rowMatches at hm
      simp only [Bool.and_eq_true, decide_eq_true_eq] at hm
      exact hm.1
    refine ⟨?_, hbit, ?_⟩
    · have h := lookupHWIntrinsic_of_find D compSupports className methodName info
        (by rw [hisa]; exact hnone) hrows (by rw [hisa]; exact hfind)
      rw [hisa] at h
      exact h
    · intro hab hflags
      have := hskip methodName info hflags hab
      rw [hm] at this
      cases this

/-- Witness for C18: `Aes` (2) and `Simd` (3) in `sampleDecls`; the flags do not intersect,
and the `Add` row of `Simd` fails the test for `Aes`. -/
theorem lookupHWIntrinsic_namespace_isolation_witness :
    ¬ (IsaFlag.flag 3 &&& IsaFlag.flag 2 ≠ 0) ∧
    rowMatches (IsaFlag.flag 2) "Add"
      { intrinsicID := 15, intrinsicName := "Add", isaflags := 2 ^ 3,
        form := Form.SimdBinaryOp } = false :=
  ⟨fun hne => absurd
      ((lookupHWIntrinsic_namespace_isolation 3 2 (by decide) (by decide)).1.mp hne)
      (by decide),
   (lookupHWIntrinsic_namespace_isolation 3 2 (by decide) (by decide)).2.1 "Add"
      { intrinsicID := 15, intrinsicName := "Add", isaflags := 2 ^ 3,
        form := Form.SimdBinaryOp }
      (by decide) (by decide)⟩

/-! ## Name resolution: the first match decides -/

/-- The scan entered at index `k` with `n` iterations left stops at the row `i` places
further on, if that row matches, no row between does, and `i < n`. -/
theorem lookupLoop_first_at (D : Arm64Decls) (compSupports : InstructionSet → Bool)
    (isa : InstructionSet) (isaFlag : Nat) (methodName : String) (first : HWIntrinsicInfo) :
    ∀ (i n k : Nat), (hwIntrinsicInfoArray D)[k + i]? = some first →
      rowMatches isaFlag methodName first = true →
      (∀ j, j < i → ∀ d, (hwIntrinsicInfoArray D)[k + j]? = some d →
        rowMatches isaFlag methodName d = false) →
      i < n →
      lookupLoop D compSupports isa isaFlag methodName n k =
        some (if compSupports isa then first.intrinsicID
              else if first.intrinsicID ≠ D.NI_ARM64_IsSupported_True
                then D.NI_ARM64_PlatformNotSupported
                else D.NI_ARM64_IsSupported_False) := by
  intro i
  induction i with
  | zero =>
    intro n k hrow hm _ hn
    obtain ⟨n', rfl⟩ : ∃ n', n = n' + 1 := Nat.exists_eq_succ_of_ne_zero (by omega)
    exact lookupLoop_of_row D compSupports isa isaFlag methodName first n' k
      (by simpa using hrow) hm
  | succ i ih =>
    intro n k hrow hm hbefore hn
    obtain ⟨n', rfl⟩ : ∃ n', n = n' + 1 := Nat.exists_eq_succ_of_ne_zero (by omega)
    have hlen : k + (i + 1) < (hwIntrinsicInfoArray D).length := by
      by_contra hcon
      rw [List.getElem?_eq_none_iff.mpr (Nat.le_of_not_lt hcon)] at hrow
      cases hrow
    have hk : k < (hwIntrinsicInfoArray D).length := by omega
    have hrowk : (hwIntrinsicInfoArray D)[k]? = some (hwIntrinsicInfoArray D)[k] :=
      List.getElem?_eq_getElem hk
    have hmk : rowMatches isaFlag methodName (hwIntrinsicInfoArray D)[k] = false :=
      hbefore 0 (Nat.succ_pos i) _ (by rw [Nat.add_zero]; exact hrowk)
    unfold lookupLoop
    rw [hrowk]
    show (if rowMatches isaFlag methodName (hwIntrinsicInfoArray D)[k] = true then _ else _) = _
    rw [if_neg (fun h => Bool.false_ne_true (hmk.symm.trans h))]
    refine ih n' (k + 1) ?_ hm ?_ (by omega)
    · have hidx : k + 1 + i = k + (i + 1) := by omega
      rw [hidx]
      exact hrow
    · intro j hj d hd
      have hidx : k + 1 + j = k + (j + 1) := by omega
      rw [hidx] at hd
      exact hbefore (j + 1) (by omega) d hd

/-- In a list, an element at index `i` that satisfies `p`, with no element of the first
`i` satisfying `p`, is what `find?` returns. -/
theorem find?_of_first_index {α : Type} (p : α → Bool) (a : α) :
    ∀ (l : List α) (i : Nat), l[i]? = some a → p a = true →
      (l.take i).all (fun d => !p d) = true → l.find? p = some a := by
  intro l
  induction l with
  | nil =>
    intro i hrow _ _
    simp at hrow
  | cons x xs ih =>
    intro i hrow hp hall
    cases i with
    | zero =>
      have hx : x = a := by simpa using hrow
      rw [hx, List.find?_cons, hp]
    | succ i =>
      have hpx : p x = false := by
        have := hall
        simp only [List.take_succ_cons, List.all_cons, Bool.and_eq_true] at this
        simpa using this.1
      have hrest : (xs.take i).all (fun d => !p d) = true := by
        have := hall
        simp only [List.take_succ_cons, List.all_cons, Bool.and_eq_true] at this
        exact this.2
      rw [List.find?_cons, hpx]
      exact ih i (by simpa using hrow) hp hrest

/-- The test of the specification's scan is the test of the code's scan. -/
theorem resolveSpec_test_eq (isaFlag : Nat) (methodName : String) :
    (fun d : HWIntrinsicInfo => decide (isaFlag &&& d.isaflags ≠ 0) &&
      decide (d.intrinsicName = methodName)) = rowMatches isaFlag methodName := by
  funext d
  unfold rowMatches
  by_cases h : d.intrinsicName = methodName
  · simp [h]
  · have h' : ¬ methodName = d.intrinsicName := fun e => h e.symm
    simp [h, h']

/-- The instruction set of a class name does not depend on the intrinsic list. -/
theorem lookupHWIntrinsicISA_intrinsics (D : Arm64Decls) (rows : List HWIntrinsicInfo)
    (className : Option String) :
    lookupHWIntrinsicISA { D with intrinsics := rows } className =
      lookupHWIntrinsicISA D className := by
  cases className <;> rfl

/-- A resolved class, and a row at index `i` below the loop bound that matches while no
earlier row does: the value of `lookupHWIntrinsic`. -/
theorem lookupHWIntrinsic_of_first_index (D : Arm64Decls)
    (compSupports : InstructionSet → Bool) (className : Option String) (methodName : String)
    (i : Nat) (first : HWIntrinsicInfo)
    (hisa : lookupHWIntrinsicISA D className ≠ D.InstructionSet_NONE)
    (hi : i < D.NI_HW_INTRINSIC_END - D.NI_HW_INTRINSIC_START)
    (hrow : (hwIntrinsicInfoArray D)[i]? = some first)
    (hm : rowMatches (IsaFlag.flag (lookupHWIntrinsicISA D className)) methodName first = true)
    (hbefore : ((hwIntrinsicInfoArray D).take i).all
      (fun d => !rowMatches (IsaFlag.flag (lookupHWIntrinsicISA D className)) methodName d) =
        true) :
    lookupHWIntrinsic D compSupports className methodName =
      some (if compSupports (lookupHWIntrinsicISA D className) then first.intrinsicID
            else if first.intrinsicID ≠ D.NI_ARM64_IsSupported_True
              then D.NI_ARM64_PlatformNotSupported
              else D.NI_ARM64_IsSupported_False) := by
  unfold lookupHWIntrinsic
  simp only [hisa, ne_eq, not_false_eq_true, if_true]
  refine lookupLoop_first_at D compSupports _ _ methodName first i _ 0 (by simpa using hrow) hm
    ?_ hi
  intro j hj d hd
  have hmem : d ∈ (hwIntrinsicInfoArray D).take i := by
    rw [List.mem_iff_getElem?]
    exact ⟨j, by rw [List.getElem?_take_of_lt hj]; simpa using hd⟩
  have := List.all_eq_true.mp hbefore d hmem
  simpa using this

/-- C14: when the class name resolves and the row at index `i` (below the loop bound) is
the first row of the table, in declaration order, whose flags intersect the flag of the
instruction set and whose name equals `methodName`, then the result of `lookupHWIntrinsic`
is decided by that row; it is what the specification's find-first over the whole table
gives; and it is the same for every intrinsic list whose table has the same rows up to and
including index `i`, so that no later row, matching or not, influences it. -/
theorem lookupHWIntrinsic_first_match_decides (D : Arm64Decls)
    (compSupports : InstructionSet → Bool) (className : Option String) (methodName : String)
    (i : Nat) (first : HWIntrinsicInfo)
    (hisa : lookupHWIntrinsicISA D className ≠ D.InstructionSet_NONE)
    (hi : i < D.NI_HW_INTRINSIC_END - D.NI_HW_INTRINSIC_START)
    (hrow : (hwIntrinsicInfoArray D)[i]? = some first)
    (hm : rowMatches (IsaFlag.flag (lookupHWIntrinsicISA D className)) methodName first = true)
    (hbefore : ((hwIntrinsicInfoArray D).take i).all
      (fun d => !rowMatches (IsaFlag.flag (lookupHWIntrinsicISA D className)) methodName d) =
        true) :
    lookupHWIntrinsic D compSupports className methodName =
      some (if compSupports (lookupHWIntrinsicISA D className) then first.intrinsicID
            else if first.intrinsicID ≠ D.NI_ARM64_IsSupported_True
              then D.NI_ARM64_PlatformNotSupported
              else D.NI_ARM64_IsSupported_False) ∧
    lookupHWIntrinsic D compSupports className methodName =
      some (resolveSpec D compSupports className methodName) ∧
    ∀ rows : List HWIntrinsicInfo,
      (hwIntrinsicInfoArray { D with intrinsics := rows }).take (i + 1) =
        (hwIntrinsicInfoArray D).take (i + 1) →
      lookupHWIntrinsic { D with intrinsics := rows } compSupports className methodName =
        lookupHWIntrinsic D compSupports className methodName := by
  have hval := lookupHWIntrinsic_of_first_index D compSupports className methodName i first
    hisa hi hrow hm hbefore
  refine ⟨hval, ?_, ?_⟩
  · have hfind : (hwIntrinsicInfoArray D).find?
        (rowMatches (IsaFlag.flag (lookupHWIntrinsicISA D className)) methodName) =
        some first :=
      find?_of_first_index _ first (hwIntrinsicInfoArray D) i hrow hm hbefore
    rw [hval]
    unfold resolveSpec
    simp only [hisa, if_false, resolveSpec_test_eq, hfind]
    cases compSupports (lookupHWIntrinsicISA D className)
    · by_cases hid : first.intrinsicID = D.NI_ARM64_IsSupported_True
      · simp [hid]
      · simp [hid]
    · simp
  · intro rows hsame
    have hisa' := lookupHWIntrinsicISA_intrinsics D rows className
    have hrow' : (hwIntrinsicInfoArray { D with intrinsics := rows })[i]? = some first := by
      rw [← List.getElem?_take_of_lt (Nat.lt_succ_self i), hsame,
        List.getElem?_take_of_lt (Nat.lt_succ_self i)]
      exact hrow
    have htake' : (hwIntrinsicInfoArray { D with intrinsics := rows }).take i =
        (hwIntrinsicInfoArray D).take i := by
      have h1 := congrArg (List.take i) hsame
      rw [List.take_take, List.take_take, Nat.min_eq_left (Nat.le_succ i)] at h1
      exact h1
    have hval' := lookupHWIntrinsic_of_first_index { D with intrinsics := rows } compSupports
      className methodName i first (by rw [hisa']; exact hisa) hi hrow'
      (by rw [hisa']; exact hm) (by rw [hisa', htake']; exact hbefore)
    rw [hval', hval, hisa']

/-- Witness for C14: in `tiedDecls` the rows 4 (id 15) and 9 (id 20) both match class
`Simd` and method `Add`; the result is the id of row 4. -/
theorem lookupHWIntrinsic_first_match_decides_witness :
    rowMatches (IsaFlag.flag 3) "Add"
      { intrinsicID := 20, intrinsicName := "Add", isaflags := 2 ^ 3,
        form := Form.SimdUnaryOp } = true ∧
    (hwIntrinsicInfoArray tiedDecls)[9]? =
      some { intrinsicID := 20, intrinsicName := "Add", isaflags := 2 ^ 3,
             form := Form.SimdUnaryOp } ∧
    lookupHWIntrinsic tiedDecls allSupported (some "Simd") "Add" = some 15 :=
  ⟨by decide, by decide,
   (lookupHWIntrinsic_first_match_decides tiedDecls allSupported (some "Simd") "Add" 4
      { intrinsicID := 15, intrinsicName := "Add", isaflags := 2 ^ 3,
        form := Form.SimdBinaryOp }
      (by decide) (by decide) (by decide) (by decide) (by decide)).1⟩

/-! ## Name resolution: the indices the scan reads -/

/-- A scan that accepts no row from index `i` on, and whose bound lies beyond the table,
reads the index `length`. -/
theorem lookupLoopReads_no_match (D : Arm64Decls) (isaFlag : Nat) (methodName : String) :
    ∀ (n i : Nat), i ≤ (hwIntrinsicInfoArray D).length →
      (hwIntrinsicInfoArray D).length < i + n →
      (∀ d ∈ (hwIntrinsicInfoArray D).drop i, rowMatches isaFlag methodName d = false) →
      (hwIntrinsicInfoArray D).length ∈ lookupLoopReads D isaFlag methodName n i := by
  intro n
  induction n with
  | zero =>
    intro i hi hlen _
    omega
  | succ n ih =>
    intro i hi hlen hno
    unfold lookupLoopReads
    by_cases heq : i = (hwIntrinsicInfoArray D).length
    · rw [← heq]
      exact List.mem_cons_self _ _
    · have hlt : i < (hwIntrinsicInfoArray D).length := by omega
      have hrow : (hwIntrinsicInfoArray D)[i]? = some (hwIntrinsicInfoArray D)[i] :=
        List.getElem?_eq_getElem hlt
      have hdrop : (hwIntrinsicInfoArray D).drop i =
          (hwIntrinsicInfoArray D)[i] :: (hwIntrinsicInfoArray D).drop (i + 1) :=
        List.drop_eq_getElem_cons hlt
      have hm : rowMatches isaFlag methodName (hwIntrinsicInfoArray D)[i] = false :=
        hno _ (by rw [hdrop]; exact List.mem_cons_self _ _)
      rw [hrow]
      refine List.mem_cons_of_mem _ ?_
      show _ ∈ (if rowMatches isaFlag methodName (hwIntrinsicInfoArray D)[i] = true then _
        else _)
      rw [if_neg (fun h => Bool.false_ne_true (hm.symm.trans h))]
      refine ih (i + 1) hlt (by omega) ?_
      intro e he
      exact hno e (by rw [hdrop]; exact List.mem_cons_of_mem _ he)

/-- A scan that finds a matching row reads valid indices only. -/
theorem lookupLoopReads_of_find (D : Arm64Decls) (isaFlag : Nat) (methodName : String)
    (info : HWIntrinsicInfo) :
    ∀ (n i : Nat),
      ((hwIntrinsicInfoArray D).drop i).find? (rowMatches isaFlag methodName) = some info →
      ∀ k ∈ lookupLoopReads D isaFlag methodName n i, k < (hwIntrinsicInfoArray D).length := by
  intro n
  induction n with
  | zero =>
    intro i _ k hk
    simp [lookupLoopReads] at hk
  | succ n ih =>
    intro i hfind k hk
    have hlt : i < (hwIntrinsicInfoArray D).length := by
      by_contra hcon
      rw [List.drop_eq_nil_of_le (Nat.le_of_not_lt hcon)] at hfind
      simp at hfind
    have hrow : (hwIntrinsicInfoArray D)[i]? = some (hwIntrinsicInfoArray D)[i] :=
      List.getElem?_eq_getElem hlt
    have hdrop : (hwIntrinsicInfoArray D).drop i =
        (hwIntrinsicInfoArray D)[i] :: (hwIntrinsicInfoArray D).drop (i + 1) :=
      List.drop_eq_getElem_cons hlt
    unfold lookupLoopReads at hk
    rw [hrow] at hk
    rcases List.mem_cons.mp hk with hki | hrest
    · rw [hki]
      exact hlt
    · cases hm : rowMatches isaFlag methodName (hwIntrinsicInfoArray D)[i] with
      | true =>
        have hrest' : k ∈ (if rowMatches isaFlag methodName (hwIntrinsicInfoArray D)[i] = true
            then ([] : List Nat) else lookupLoopReads D isaFlag methodName n (i + 1)) := hrest
        rw [if_pos hm] at hrest'
        cases hrest'
      | false =>
        have hrest' : k ∈ (if rowMatches isaFlag methodName (hwIntrinsicInfoArray D)[i] = true
            then ([] : List Nat) else lookupLoopReads D isaFlag methodName n (i + 1)) := hrest
        rw [if_neg (fun h => Bool.false_ne_true (hm.symm.trans h))] at hrest'
        rw [hdrop, List.find?_cons, hm] at hfind
        exact ih (i + 1) hfind k hrest'

/-- With one row per id, a resolved class and no matching row, the scan reads the index
`length`, which is outside the table, for every capability state. -/
theorem lookupHWIntrinsicReads_past_table (D : Arm64Decls) (className : Option String)
    (methodName : String) (hdense : D.oneRowPerId)
    (hisa : lookupHWIntrinsicISA D className ≠ D.InstructionSet_NONE)
    (hfind : (hwIntrinsicInfoArray D).find?
      (rowMatches (IsaFlag.flag (lookupHWIntrinsicISA D className)) methodName) = none) :
    (hwIntrinsicInfoArray D).length ∈ lookupHWIntrinsicReads D className methodName ∧
    (hwIntrinsicInfoArray D)[(hwIntrinsicInfoArray D).length]? = none ∧
    ∀ compSupports : InstructionSet → Bool,
      lookupHWIntrinsic D compSupports className methodName = none := by
  obtain ⟨hrange, hlen, _⟩ := hdense
  have hbound : (hwIntrinsicInfoArray D).length <
      D.NI_HW_INTRINSIC_END - D.NI_HW_INTRINSIC_START := by
    rw [hlen]
    exact Nat.sub_one_lt (Nat.sub_ne_zero_of_lt hrange)
  have hno : ∀ d ∈ (hwIntrinsicInfoArray D).drop 0,
      rowMatches (IsaFlag.flag (lookupHWIntrinsicISA D className)) methodName d = false := by
    intro d hd
    rw [List.drop_zero] at hd
    have := List.find?_eq_none.mp hfind d hd
    simpa using this
  refine ⟨?_, List.getElem?_eq_none_iff.mpr (Nat.le_refl _), ?_⟩
  · unfold lookupHWIntrinsicReads
    simp only [hisa, ne_eq, not_false_eq_true, if_true]
    exact lookupLoopReads_no_match D _ methodName _ 0 (Nat.zero_le _) (by omega) hno
  · intro compSupports
    exact lookupHWIntrinsic_of_no_match D compSupports className methodName hisa hbound hfind

/-- C17, at the failing input: the table of `sampleDecls` holds one row per id (9 rows,
`NI_HW_INTRINSIC_END - NI_HW_INTRINSIC_START = 10`); class `Simd` resolves and no row
matches the method name `get_isSupported`; the scan reads the indices 0 to 9, and index 9
is outside the table. -/
theorem lookupHWIntrinsic_scan_reads_past_table :
    sampleDecls.oneRowPerId ∧
    lookupHWIntrinsicISA sampleDecls (some "Simd") = 3 ∧
    (3 : InstructionSet) ≠ sampleDecls.InstructionSet_NONE ∧
    (hwIntrinsicInfoArray sampleDecls).find?
      (rowMatches (IsaFlag.flag 3) "get_isSupported") = none ∧
    (hwIntrinsicInfoArray sampleDecls).length = 9 ∧
    lookupHWIntrinsicReads sampleDecls (some "Simd") "get_isSupported" =
      [0, 1, 2, 3, 4, 5, 6, 7, 8, 9] ∧
    (hwIntrinsicInfoArray sampleDecls)[9]? = none := by
  decide

end HWIntrinsicArm64
